import Mathlib

set_option maxRecDepth 4000

/-!
Shallow embedding of the settlement-economy core of the Folkrow village game.

Sources:
* js/data/itemData.js     - the static item catalog (BUILDING_DATA, DECORATION_DATA, ROAD_DATA)
* js (GameState class)    - placement ledger and workforce allocator
  (isValidPosition, getItemCost, getDemolitionCost, canAfford, checkRequirements,
   calculateWorkersRequired, placeItem, clearCell, placeItemFree, removeItemFree)
* js/utils/Pathfinder.js  - road-graph queries and the BFS reachability search
* js/utils/coordinateUtils.js - tile/world/screen transforms
* js/core/VillagerManager.js  - villager spawn/cap/update simulation

Modelling conventions: JS numbers are rationals (budget, costs, multipliers,
timers); quantities that are integral throughout the concrete catalog and the
operations (tile coordinates, population counts, requirement thresholds) are
integers; JS arrays are lists; JS object literals keyed by strings are
association lists; a JS method mutating `this` becomes a function from the
state to the new state, paired with the returned boolean where the source
returns one.  Purely cosmetic villager fields that no game logic ever reads
(id, color, shirtColor, and the atan2 facing angle) are omitted.
-/

/-- A value appearing in a `requires` object of the catalog: either a numeric
threshold or a building id string (used by the `building` requirement kind). -/
inductive ReqVal where
  | num (n : Int)
  | str (s : String)
deriving DecidableEq, Repr

/-- One catalog entry.  Only the fields that the economy core reads are kept:
`cost`, `demolitionCostMultiplier` (absent = the code's `?? 0.5` default),
`population` (absent = 0, the code guards on JS truthiness so 0 and absent
behave identically), `requires` (absent = the empty list) and
`allowAdjacentPlacement` (the code tests `=== true`, so absent = false). -/
structure ItemData where
  cost : Rat
  demolitionCostMultiplier : Option Rat := none
  population : Int := 0
  requires : List (String × ReqVal) := []
  allowAdjacentPlacement : Bool := false
deriving DecidableEq, Repr

/-- BUILDING_DATA from itemData.js (economy-relevant fields only). -/
def BUILDING_DATA : List (String × ItemData) := [
  ("house1", { cost := 300, demolitionCostMultiplier := some 0.2, population := 2 }),
  ("house2", { cost := 600, demolitionCostMultiplier := some 0.3, population := 4,
               requires := [("population", ReqVal.num 8)] }),
  ("timberman", { cost := 1000, demolitionCostMultiplier := some 0.3,
                  requires := [("population", ReqVal.num 14), ("unemployedPopulation", ReqVal.num 3)] }),
  ("blacksmith", { cost := 1800, demolitionCostMultiplier := some 0.5,
                   requires := [("population", ReqVal.num 24), ("unemployedPopulation", ReqVal.num 4)] }),
  ("wheat", { cost := 110, demolitionCostMultiplier := some 0.1, allowAdjacentPlacement := true,
              requires := [("unemployedPopulation", ReqVal.num 1)] }),
  ("shop", { cost := 700, demolitionCostMultiplier := some 0.2, allowAdjacentPlacement := true,
             requires := [("population", ReqVal.num 8), ("unemployedPopulation", ReqVal.num 2)] }),
  ("woodcutter", { cost := 170, demolitionCostMultiplier := some 0.1,
                   requires := [("unemployedPopulation", ReqVal.num 1)] }),
  ("stonecutter", { cost := 200, demolitionCostMultiplier := some 0.3,
                    requires := [("unemployedPopulation", ReqVal.num 1)] }),
  ("campfire", { cost := 75, demolitionCostMultiplier := some 0.1, allowAdjacentPlacement := true }),
  ("well", { cost := 150, demolitionCostMultiplier := some 0.1, allowAdjacentPlacement := true })]

/-- DECORATION_DATA from itemData.js. -/
def DECORATION_DATA : List (String × ItemData) := [
  ("tree", { cost := 20, demolitionCostMultiplier := some 0.2, allowAdjacentPlacement := true }),
  ("pine", { cost := 45, demolitionCostMultiplier := some 0.2, allowAdjacentPlacement := true }),
  ("stump", { cost := 5, demolitionCostMultiplier := some 0.8 }),
  ("roots", { cost := 5, demolitionCostMultiplier := some 0.8 }),
  ("rocks", { cost := 20, demolitionCostMultiplier := some 0.8, allowAdjacentPlacement := true }),
  ("boulder", { cost := 30, demolitionCostMultiplier := some 0.8, allowAdjacentPlacement := true }),
  ("bush", { cost := 15, demolitionCostMultiplier := some 0.5, allowAdjacentPlacement := true }),
  ("lamp", { cost := 75, demolitionCostMultiplier := some 0.3, allowAdjacentPlacement := true }),
  ("bench", { cost := 120, demolitionCostMultiplier := some 0.3, allowAdjacentPlacement := true })]

/-- ROAD_DATA from itemData.js. -/
def ROAD_DATA : List (String × ItemData) := [
  ("dirt", { cost := 10, demolitionCostMultiplier := some 0.5, allowAdjacentPlacement := true }),
  ("gravel", { cost := 20, demolitionCostMultiplier := some 0.5, allowAdjacentPlacement := true,
               requires := [("building", ReqVal.str "stonecutter")] }),
  ("stone", { cost := 50, demolitionCostMultiplier := some 0.3, allowAdjacentPlacement := true,
              requires := [("building", ReqVal.str "stonecutter")] }),
  ("planks", { cost := 35, demolitionCostMultiplier := some 0.5, allowAdjacentPlacement := true,
               requires := [("building", ReqVal.str "woodcutter")] })]

/-- The three-way dispatch used throughout GameState:
`type === 'building' && BUILDING_DATA[id] ? ... : type === 'decoration' && ...`.
Returns the catalog entry, or none when the type is unknown or the id is
missing from the table for that type. -/
def lookupItemData (type id : String) : Option ItemData :=
  if type = "building" then BUILDING_DATA.lookup id
  else if type = "decoration" then DECORATION_DATA.lookup id
  else if type = "road" then ROAD_DATA.lookup id
  else none

/-- CONFIG.GRID_SIZE from config.js. -/
def GRID_SIZE : Int := 50

/-- CONFIG.INITIAL_BUDGET from config.js. -/
def INITIAL_BUDGET : Rat := 800

/-- One element of GameState.placedItems: `{type, id, isoX, isoY, flipped}`. -/
structure PlacedItem where
  type : String
  id : String
  isoX : Int
  isoY : Int
  flipped : Bool
deriving DecidableEq, Repr

/-- The mutable fields of the GameState class that the economy core reads and
writes (placed items, budget, population bookkeeping, and the day/night flag
consulted by the villager spawn cap).  UI selection fields and the tick
counter are not part of any claim and are omitted. -/
structure GameState where
  placedItems : List PlacedItem
  budget : Rat
  population : Int
  unemployedPopulation : Int
  isDay : Bool
deriving DecidableEq, Repr

namespace GameState

/-- GameState.isValidPosition: bounds check, occupancy check, same-type/id
adjacency gap (Chebyshev distance <= 1) unless the catalog allows adjacency,
and, for buildings, the nearby-road check (Chebyshev distance <= 1). -/
def isValidPosition (s : GameState) (isoX isoY : Int) (type id : String) : Bool :=
  if isoX < -GRID_SIZE || isoX > GRID_SIZE || isoY < -GRID_SIZE || isoY > GRID_SIZE then
    false
  else if s.placedItems.any (fun item => item.isoX == isoX && item.isoY == isoY) then
    false
  else
    let allowAdjacent :=
      match lookupItemData type id with
      | some d => d.allowAdjacentPlacement
      | none => false
    let hasNearbyItem :=
      s.placedItems.any (fun item =>
        if item.type ≠ type || item.id ≠ id then false
        else
          let dx := (item.isoX - isoX).natAbs
          let dy := (item.isoY - isoY).natAbs
          dx ≤ 1 && dy ≤ 1 && (dx ≠ 0 || dy ≠ 0))
    if !allowAdjacent && hasNearbyItem then false
    else if type = "building" then
      let hasNearbyRoad :=
        s.placedItems.any (fun item =>
          if item.type ≠ "road" then false
          else
            let dx := (item.isoX - isoX).natAbs
            let dy := (item.isoY - isoY).natAbs
            dx ≤ 1 && dy ≤ 1)
      hasNearbyRoad
    else true

/-- GameState.getItemCost: the catalog cost (`cost || 0`; every catalog cost is
nonzero so the or-default only matters for missing entries) or 0 if the item
is not in the catalog. -/
def getItemCost (type id : String) : Rat :=
  match lookupItemData type id with
  | some d => d.cost
  | none => 0

/-- GameState.getDemolitionCost: 0 for cost-0 items; otherwise
`Math.floor(cost * (demolitionCostMultiplier ?? 0.5))`. -/
def getDemolitionCost (type id : String) : Int :=
  let cost := getItemCost type id
  if cost = 0 then 0
  else
    let multiplier :=
      match lookupItemData type id with
      | some d => d.demolitionCostMultiplier.getD 0.5
      | none => 0.5
    ⌊cost * multiplier⌋

/-- GameState.canAfford: `budget >= cost`. -/
def canAfford (s : GameState) (type id : String) : Bool :=
  getItemCost type id ≤ s.budget

/-- GameState.hasBuilding. -/
def hasBuilding (s : GameState) (buildingId : String) : Bool :=
  s.placedItems.any (fun item => item.type == "building" && item.id == buildingId)

/-- GameState.hasWoodcutterOrTimberman. -/
def hasWoodcutterOrTimberman (s : GameState) : Bool :=
  s.placedItems.any (fun item =>
    item.type == "building" && (item.id == "woodcutter" || item.id == "timberman"))

/-- GameState.hasStonecutter. -/
def hasStonecutter (s : GameState) : Bool :=
  s.hasBuilding "stonecutter"

/-- One checker from GameState.getRequirementCheckers, applied to one
`requires` entry, returning the `met` flag.  The three numeric kinds compare
the matching state figure with the threshold (a JS `>=` against a non-number
is false, which the `.str` fallthrough mirrors); the `building` kind tests
hasBuilding (a non-string argument never equals a placed item's string id);
an unrecognized kind is treated as unmet, blocking placement. -/
def requirementMet (s : GameState) (kind : String) (v : ReqVal) : Bool :=
  if kind = "population" then
    match v with
    | ReqVal.num n => n ≤ s.population
    | ReqVal.str _ => false
  else if kind = "budget" then
    match v with
    | ReqVal.num n => (n : Rat) ≤ s.budget
    | ReqVal.str _ => false
  else if kind = "unemployedPopulation" then
    match v with
    | ReqVal.num n => n ≤ s.unemployedPopulation
    | ReqVal.str _ => false
  else if kind = "building" then
    match v with
    | ReqVal.str b => s.hasBuilding b
    | ReqVal.num _ => false
  else false

/-- The `met` flag of GameState.checkRequirements: true when the item has no
catalog entry or no `requires` object, otherwise when every requirement
entry's checker reports met (the `missing` object is empty). -/
def checkRequirementsMet (s : GameState) (type id : String) : Bool :=
  match lookupItemData type id with
  | none => true
  | some d => d.requires.all (fun r => requirementMet s r.1 r.2)

/-- The item's own unemployedPopulation requirement:
`(itemData && itemData.requires && itemData.requires.unemployedPopulation) ? ... : 0`
(a 0 threshold is falsy in JS and yields 0 here as well). -/
def itemWorkerRequirement (type id : String) : Int :=
  match lookupItemData type id with
  | some d =>
    match d.requires.lookup "unemployedPopulation" with
    | some (ReqVal.num n) => n
    | _ => 0
  | none => 0

/-- The population granted by a placed item, as read by placeItem and
clearCell: `(item.type === 'building' && itemData && itemData.population) ? itemData.population : 0`. -/
def itemPopulation (type id : String) : Int :=
  if type = "building" then
    match lookupItemData type id with
    | some d => d.population
    | none => 0
  else 0

/-- GameState.calculateWorkersRequired: the sum of the unemployedPopulation
requirement over all placed items that declare one. -/
def calculateWorkersRequired (items : List PlacedItem) : Int :=
  (items.map (fun item => itemWorkerRequirement item.type item.id)).sum

/-- GameState.placeItem.  Returns the success flag together with the new
state; every rejection path returns before any mutation. -/
def placeItem (s : GameState) (isoX isoY : Int) (type id : String) (flipped : Bool) :
    Bool × GameState :=
  if !s.isValidPosition isoX isoY type id then (false, s)
  else if !s.canAfford type id then (false, s)
  else if !s.checkRequirementsMet type id then (false, s)
  else
    let newItemWorkerRequirement := itemWorkerRequirement type id
    let workersRequiredBefore := calculateWorkersRequired s.placedItems
    let workersRequiredAfter := workersRequiredBefore + newItemWorkerRequirement
    let currentWorkers := s.population - s.unemployedPopulation
    let cost := getItemCost type id
    let budget1 := s.budget - cost
    let items1 := s.placedItems ++ [⟨type, id, isoX, isoY, flipped⟩]
    let newPopulation := itemPopulation type id
    let pop1 := if newPopulation ≠ 0 then s.population + newPopulation else s.population
    let unemp1 :=
      if newPopulation ≠ 0 then
        let shortageAfter := max 0 (workersRequiredAfter - currentWorkers)
        if 0 < shortageAfter then
          s.unemployedPopulation + (newPopulation - min newPopulation shortageAfter)
        else
          s.unemployedPopulation + newPopulation
      else s.unemployedPopulation
    let unemp2 :=
      if 0 < newItemWorkerRequirement then max 0 (unemp1 - newItemWorkerRequirement)
      else unemp1
    let unemp3 := min pop1 unemp2
    (true, { s with placedItems := items1, budget := budget1,
                    population := pop1, unemployedPopulation := unemp3 })

/-- `findIndex` for the first item at a tile followed by `splice(idx, 1)`:
returns the removed item together with the remaining list, or none when no
item occupies the tile. -/
def extractAt : List PlacedItem → Int → Int → Option (PlacedItem × List PlacedItem)
  | [], _, _ => none
  | item :: rest, isoX, isoY =>
    if item.isoX = isoX ∧ item.isoY = isoY then some (item, rest)
    else
      match extractAt rest isoX isoY with
      | some (found, remaining) => some (found, item :: remaining)
      | none => none

/-- GameState.clearCell.  Fails (state unchanged) when the tile is empty, when
a protected decoration lacks its removal building, or when the budget cannot
cover the demolition cost; otherwise debits the demolition cost, removes the
item, and reconciles the population/workforce bookkeeping. -/
def clearCell (s : GameState) (isoX isoY : Int) : Bool × GameState :=
  match extractAt s.placedItems isoX isoY with
  | none => (false, s)
  | some (item, remaining) =>
    if item.type = "decoration" ∧
        (item.id = "tree" ∨ item.id = "pine" ∨ item.id = "stump" ∨ item.id = "roots") ∧
        !s.hasWoodcutterOrTimberman then (false, s)
    else if item.type = "decoration" ∧ (item.id = "rocks" ∨ item.id = "boulder") ∧
        !s.hasStonecutter then (false, s)
    else
      let demolitionCost := getDemolitionCost item.type item.id
      if s.budget < demolitionCost then (false, s)
      else
        let budget1 := s.budget - demolitionCost
        let workerReq := itemWorkerRequirement item.type item.id
        let itemPop := itemPopulation item.type item.id
        let workersRequiredAfter := calculateWorkersRequired remaining
        let pop1 := if 0 < itemPop then max 0 (s.population - itemPop) else s.population
        let unemp1 :=
          if 0 < itemPop then
            let unemployedFromHouse := max 0 (itemPop - workerReq)
            max 0 (s.unemployedPopulation - unemployedFromHouse)
          else s.unemployedPopulation
        let unemp2 :=
          if 0 < workerReq then
            let unempRestored := if 0 < pop1 then min pop1 (unemp1 + workerReq) else unemp1
            let currentWorkers := pop1 - unempRestored
            if currentWorkers < workersRequiredAfter then
              let shortage := workersRequiredAfter - currentWorkers
              let workersToReassign := min unempRestored shortage
              max 0 (unempRestored - workersToReassign)
            else unempRestored
          else unemp1
        let unemp3 := min pop1 unemp2
        (true, { s with placedItems := remaining, budget := budget1,
                        population := pop1, unemployedPopulation := unemp3 })

/-- GameState.placeItemFree: bounds and occupancy checks only; no cost, no
requirement checks, no population bookkeeping. -/
def placeItemFree (s : GameState) (isoX isoY : Int) (type id : String) (flipped : Bool) :
    Bool × GameState :=
  if isoX < -GRID_SIZE || isoX > GRID_SIZE || isoY < -GRID_SIZE || isoY > GRID_SIZE then
    (false, s)
  else if s.placedItems.any (fun item => item.isoX == isoX && item.isoY == isoY) then
    (false, s)
  else
    (true, { s with placedItems := s.placedItems ++ [⟨type, id, isoX, isoY, flipped⟩] })

/-- GameState.removeItemFree: removes the first item at the tile with no cost
and no population changes. -/
def removeItemFree (s : GameState) (isoX isoY : Int) : Bool × GameState :=
  match extractAt s.placedItems isoX isoY with
  | none => (false, s)
  | some (_, remaining) => (true, { s with placedItems := remaining })

end GameState

/-- A tile coordinate pair, the `{isoX, isoY}` objects of Pathfinder.js.
The JS BFS keys its visited set by the string `x,y`, which is injective on
pairs, so plain pairs model the keys faithfully. -/
abbrev Tile := Int × Int

namespace Pathfinder

/-- Pathfinder.isRoadTile. -/
def isRoadTile (items : List PlacedItem) (isoX isoY : Int) : Bool :=
  items.any (fun item => item.type == "road" && item.isoX == isoX && item.isoY == isoY)

/-- Pathfinder.isPositionOccupied: occupied by a non-road item. -/
def isPositionOccupied (items : List PlacedItem) (isoX isoY : Int) : Bool :=
  items.any (fun item => item.isoX == isoX && item.isoY == isoY && item.type != "road")

/-- Pathfinder.isWithinBounds. -/
def isWithinBounds (isoX isoY : Int) : Bool :=
  -GRID_SIZE ≤ isoX && isoX ≤ GRID_SIZE && -GRID_SIZE ≤ isoY && isoY ≤ GRID_SIZE

/-- Pathfinder.isValidRoadTile: in bounds, a road tile, and not occupied by a
non-road item. -/
def isValidRoadTile (items : List PlacedItem) (isoX isoY : Int) : Bool :=
  isWithinBounds isoX isoY && isRoadTile items isoX isoY && !isPositionOccupied items isoX isoY

/-- Pathfinder.getAdjacentRoadTiles: the four cardinal neighbors (right, left,
down, up in source order) filtered by isValidRoadTile. -/
def getAdjacentRoadTiles (items : List PlacedItem) (isoX isoY : Int) : List Tile :=
  [(isoX + 1, isoY), (isoX - 1, isoY), (isoX, isoY + 1), (isoX, isoY - 1)].filter
    (fun t => isValidRoadTile items t.1 t.2)

/-- Pathfinder.getAllRoadTiles: positions of road items that are not occupied
by a non-road item. -/
def getAllRoadTiles (items : List PlacedItem) : List Tile :=
  ((items.filter (fun item => item.type == "road")).map (fun item => (item.isoX, item.isoY))).filter
    (fun t => !isPositionOccupied items t.1 t.2)

/-- Pathfinder.findNextStep: among the valid road neighbors, greedily pick the
one closest to the target.  The source compares `Math.sqrt(dx*dx+dy*dy)`
starting from Infinity; since the square root is strictly monotone on
nonnegative reals, comparing the squared distances selects the same tile, so
the embedding folds with squared distances (the first neighbor always beats
the initial Infinity). -/
def findNextStep (items : List PlacedItem) (startX startY targetX targetY : Int) :
    Option Tile :=
  ((getAdjacentRoadTiles items startX startY).foldl
    (fun best tile =>
      let distSq := (tile.1 - targetX) ^ 2 + (tile.2 - targetY) ^ 2
      match best with
      | none => some (tile, distSq)
      | some (_, bestSq) => if distSq < bestSq then some (tile, distSq) else best)
    none).map (fun b => b.1)

/-- One entry of the BFS queue in findRandomReachableTile:
`{isoX, isoY, distance}`. -/
structure BfsEntry where
  x : Int
  y : Int
  dist : Nat
deriving DecidableEq, Repr

/-- The finite set of in-bounds tiles; used only as the termination measure of
the BFS loop (every enqueued tile is a valid road tile, hence in bounds).
Marked irreducible so that elaboration never tries to evaluate the 101 x 101
product. -/
@[irreducible] def gridFin : Finset Tile :=
  Finset.Icc (-GRID_SIZE) GRID_SIZE ×ˢ Finset.Icc (-GRID_SIZE) GRID_SIZE

/-- Termination measure of the BFS loop: the number of tiles that are either
in bounds or sitting in the queue and are not yet visited. -/
def bfsMeasure (queue : List BfsEntry) (visited : List Tile) : Nat :=
  ((gridFin ∪ (queue.map (fun e => (e.x, e.y))).toFinset) \ visited.toFinset).card

/-- Skipping an already-visited queue head leaves the measure unchanged. -/
theorem bfsMeasure_skip (e : BfsEntry) (rest : List BfsEntry) (visited : List Tile)
    (h : (e.x, e.y) ∈ visited) : bfsMeasure rest visited = bfsMeasure (e :: rest) visited := by
  unfold bfsMeasure
  rw [List.map_cons, List.toFinset_cons, Finset.union_insert,
    Finset.insert_sdiff_of_mem _ (List.mem_toFinset.mpr h)]

/-- Visiting an unvisited queue head strictly decreases the measure, for any
continuation queue whose entries are in bounds or inherited from the rest of
the old queue. -/
theorem bfsMeasure_visit (e : BfsEntry) (rest queue1 : List BfsEntry) (visited : List Tile)
    (hsub : ∀ t ∈ queue1, (t.x, t.y) ∈ gridFin ∨ t ∈ rest)
    (h : (e.x, e.y) ∉ visited) :
    bfsMeasure queue1 ((e.x, e.y) :: visited) < bfsMeasure (e :: rest) visited := by
  unfold bfsMeasure
  apply Finset.card_lt_card
  rw [List.map_cons, List.toFinset_cons, List.toFinset_cons, Finset.union_insert]
  have hss : (gridFin ∪ (queue1.map (fun a => (a.x, a.y))).toFinset)
        \ insert (e.x, e.y) visited.toFinset
      ⊆ insert (e.x, e.y) (gridFin ∪ (rest.map (fun a => (a.x, a.y))).toFinset)
        \ visited.toFinset := by
    intro t ht
    rw [Finset.mem_sdiff] at ht ⊢
    obtain ⟨ha, hv⟩ := ht
    rw [Finset.mem_insert] at hv
    push_neg at hv
    refine ⟨?_, hv.2⟩
    rw [Finset.mem_insert]
    rcases Finset.mem_union.mp ha with hg | hq
    · exact Or.inr (Finset.mem_union_left _ hg)
    · rw [List.mem_toFinset] at hq
      obtain ⟨a, haq, rfl⟩ := List.mem_map.mp hq
      rcases hsub a haq with hg | hr
      · exact Or.inr (Finset.mem_union_left _ hg)
      · exact Or.inr (Finset.mem_union_right _
          (List.mem_toFinset.mpr (List.mem_map.mpr ⟨a, hr, rfl⟩)))
  rw [Finset.ssubset_iff_of_subset hss]
  refine ⟨(e.x, e.y), ?_, ?_⟩
  · rw [Finset.mem_sdiff]
    exact ⟨Finset.mem_insert_self _ _, fun hc => h (List.mem_toFinset.mp hc)⟩
  · rw [Finset.mem_sdiff]
    intro hc
    exact hc.2 (Finset.mem_insert_self _ _)

/-- The BFS loop of Pathfinder.findRandomReachableTile: pop the queue head,
skip it when visited, otherwise mark it visited, record it as reachable when
its distance is positive, and (below the hop bound) enqueue its unvisited
valid road neighbors at distance+1.  Well-founded recursion on the measure
witnesses that the loop terminates on every graph. -/
def bfsLoop (items : List PlacedItem) (maxD : Nat) :
    List BfsEntry → List Tile → List Tile → List Tile
  | [], _, reachable => reachable
  | e :: rest, visited, reachable =>
    if (e.x, e.y) ∈ visited then
      bfsLoop items maxD rest visited reachable
    else
      bfsLoop items maxD
        (if e.dist < maxD then
          rest ++ ((getAdjacentRoadTiles items e.x e.y).filter
              (fun t => decide (t ∉ (e.x, e.y) :: visited))).map
            (fun t => ⟨t.1, t.2, e.dist + 1⟩)
        else rest)
        ((e.x, e.y) :: visited)
        (if 0 < e.dist then reachable ++ [(e.x, e.y)] else reachable)
termination_by queue visited _ => (bfsMeasure queue visited, queue.length)
decreasing_by
  · rename_i h
    have hmem : (e.x, e.y) ∈ visited := by simpa using h
    have hskip : bfsMeasure rest visited = bfsMeasure (e :: rest) visited := by
      unfold bfsMeasure
      rw [List.map_cons, List.toFinset_cons, Finset.union_insert,
        Finset.insert_sdiff_of_mem _ (List.mem_toFinset.mpr hmem)]
    rw [hskip]
    exact Prod.Lex.right _ (Nat.lt_succ_self _)
  · rename_i h
    have hmem : (e.x, e.y) ∉ visited := by simpa using h
    have hgrid : ∀ t : Tile, isValidRoadTile items t.1 t.2 = true → t ∈ gridFin := by
      intro t ht
      rw [isValidRoadTile, Bool.and_eq_true, Bool.and_eq_true] at ht
      have hb := ht.1.1
      rw [isWithinBounds] at hb
      simp only [Bool.and_eq_true, decide_eq_true_eq] at hb
      unfold gridFin
      rw [Finset.mem_product, Finset.mem_Icc, Finset.mem_Icc]
      tauto
    have key : ∀ queue1 : List BfsEntry, (∀ t ∈ queue1, (t.x, t.y) ∈ gridFin ∨ t ∈ rest) →
        bfsMeasure queue1 ((e.x, e.y) :: visited) < bfsMeasure (e :: rest) visited := by
      intro queue1 hsub
      unfold bfsMeasure
      apply Finset.card_lt_card
      rw [List.map_cons, List.toFinset_cons, List.toFinset_cons, Finset.union_insert]
      have hss : (gridFin ∪ (queue1.map (fun a => (a.x, a.y))).toFinset)
            \ insert (e.x, e.y) visited.toFinset
          ⊆ insert (e.x, e.y) (gridFin ∪ (rest.map (fun a => (a.x, a.y))).toFinset)
            \ visited.toFinset := by
        intro t ht
        rw [Finset.mem_sdiff] at ht ⊢
        obtain ⟨ha, hv⟩ := ht
        rw [Finset.mem_insert] at hv
        push_neg at hv
        refine ⟨?_, hv.2⟩
        rw [Finset.mem_insert]
        rcases Finset.mem_union.mp ha with hg | hq
        · exact Or.inr (Finset.mem_union_left _ hg)
        · rw [List.mem_toFinset] at hq
          obtain ⟨a, haq, rfl⟩ := List.mem_map.mp hq
          rcases hsub a haq with hg | hr
          · exact Or.inr (Finset.mem_union_left _ hg)
          · exact Or.inr (Finset.mem_union_right _
              (List.mem_toFinset.mpr (List.mem_map.mpr ⟨a, hr, rfl⟩)))
      rw [Finset.ssubset_iff_of_subset hss]
      refine ⟨(e.x, e.y), ?_, ?_⟩
      · rw [Finset.mem_sdiff]
        exact ⟨Finset.mem_insert_self _ _, fun hc => hmem (List.mem_toFinset.mp hc)⟩
      · rw [Finset.mem_sdiff]
        intro hc
        exact hc.2 (Finset.mem_insert_self _ _)
    apply Prod.Lex.left
    apply key
    intro t ht
    split at ht
    · rcases List.mem_append.mp ht with hr | hn
      · exact Or.inr hr
      · simp only [List.mem_map, List.mem_filter] at hn
        obtain ⟨a, ⟨ha, _⟩, rfl⟩ := hn
        rw [getAdjacentRoadTiles, List.mem_filter] at ha
        exact Or.inl (hgrid a ha.2)
    · exact Or.inr ht

/-- The list of reachable tiles collected by findRandomReachableTile: empty
when the start is not a valid road tile, otherwise the output of the BFS loop
seeded with the start tile at distance 0. -/
def reachableTiles (items : List PlacedItem) (startX startY : Int) (maxD : Nat) : List Tile :=
  if isValidRoadTile items startX startY then
    bfsLoop items maxD [⟨startX, startY, 0⟩] [] []
  else []

/-- The random pick `list[Math.floor(Math.random() * list.length)]`, with the
random draw modelled by an arbitrary natural index (taken modulo the length);
returns none exactly on the empty list, where the source returns null. -/
def pick (l : List Tile) (i : Nat) : Option Tile :=
  l.get? (i % l.length)

/-- Pathfinder.findRandomReachableTile: none when the start is invalid or
nothing is reachable, otherwise a random element of the reachable list. -/
def findRandomReachableTile (items : List PlacedItem) (startX startY : Int) (maxD : Nat)
    (i : Nat) : Option Tile :=
  pick (reachableTiles items startX startY maxD) i

/-- Pathfinder.getRandomAdjacentRoadTile. -/
def getRandomAdjacentRoadTile (items : List PlacedItem) (isoX isoY : Int) (i : Nat) :
    Option Tile :=
  pick (getAdjacentRoadTiles items isoX isoY) i

/-- Pathfinder.getRandomRoadTile. -/
def getRandomRoadTile (items : List PlacedItem) (i : Nat) : Option Tile :=
  pick (getAllRoadTiles items) i

/-- Processing one tile of a BFS level: skip it when visited, otherwise visit
it, collect it when the level is positive, and (below the hop bound) append
its valid road neighbors that are still unvisited to the next frontier.  The
state triple is (visited, next frontier, reachable).  This is the per-element
action of bfsLoop, regrouped level by level; bfsLoop_eq_levCont proves the
regrouping exact. -/
def procLevel (items : List PlacedItem) (maxD d : Nat)
    (st : List Tile × List Tile × List Tile) (p : Tile) :
    List Tile × List Tile × List Tile :=
  if p ∈ st.1 then st
  else
    (p :: st.1,
     if d < maxD then
       st.2.1 ++ (getAdjacentRoadTiles items p.1 p.2).filter (fun t => decide (t ∉ p :: st.1))
     else st.2.1,
     if 0 < d then st.2.2 ++ [p] else st.2.2)

/-- The level-by-level view of the BFS: given the state after folding level d
(visited set, frontier for level d+1, reachable so far), process the next
`fuel` levels and return the reachable list. -/
def levCont (items : List PlacedItem) (maxD : Nat) :
    Nat → Nat → List Tile × List Tile × List Tile → List Tile
  | 0, _, st => st.2.2
  | fuel + 1, d, st =>
    levCont items maxD fuel (d + 1)
      ((st.2.1).foldl (procLevel items maxD (d + 1)) (st.1, [], st.2.2))

/-- A path of a given length from the start tile through the road graph: each
step moves to a valid road tile among the four cardinal neighbors of the
previous one (exactly the edges the BFS explores). -/
inductive PathTo (items : List PlacedItem) (start : Tile) : Tile → Nat → Prop where
  | refl : PathTo items start start 0
  | step {p q : Tile} {n : Nat} : PathTo items start p n →
      q ∈ getAdjacentRoadTiles items p.1 p.2 → PathTo items start q (n + 1)

end Pathfinder

/-- CONFIG.TILE_WIDTH from config.js. -/
def TILE_WIDTH : Rat := 64

/-- CONFIG.TILE_HEIGHT from config.js. -/
def TILE_HEIGHT : Rat := 32

/-- tileToWorld from coordinateUtils.js. -/
def tileToWorld (tx ty : Rat) : Rat × Rat :=
  ((tx - ty) * (TILE_WIDTH / 2), (tx + ty) * (TILE_HEIGHT / 2))

/-- worldToScreen from coordinateUtils.js. -/
def worldToScreen (wx wy canvasWidth canvasHeight cameraX cameraY zoom : Rat) : Rat × Rat :=
  ((wx - cameraX) * zoom + canvasWidth / 2, (wy - cameraY) * zoom + canvasHeight / 2)

/-- screenToWorld from coordinateUtils.js. -/
def screenToWorld (sx sy canvasWidth canvasHeight cameraX cameraY zoom : Rat) : Rat × Rat :=
  ((sx - canvasWidth / 2) / zoom + cameraX, (sy - canvasHeight / 2) / zoom + cameraY)

/-- screenToTile from coordinateUtils.js: screenToWorld composed with the
floored inverse of tileToWorld. -/
def screenToTile (sx sy canvasWidth canvasHeight cameraX cameraY zoom : Rat) : Int × Int :=
  let world := screenToWorld sx sy canvasWidth canvasHeight cameraX cameraY zoom
  let tw := TILE_WIDTH / 2
  let th := TILE_HEIGHT / 2
  (⌊(world.2 / th + world.1 / tw) / 2⌋, ⌊(world.2 / th - world.1 / tw) / 2⌋)

/-- screenToIso from coordinateUtils.js (the variant used by the renderer's
hover highlight): note that it divides by the full TILE_WIDTH / TILE_HEIGHT,
not the half-extents used by tileToWorld and isoToScreen. -/
def screenToIso (screenX screenY canvasWidth canvasHeight cameraX cameraY zoom : Rat) :
    Int × Int :=
  let x := (screenX - canvasWidth / 2 - cameraX) / zoom
  let y := (screenY - canvasHeight / 2 - cameraY) / zoom
  (⌊(x / TILE_WIDTH + y / TILE_HEIGHT) / 2⌋, ⌊(y / TILE_HEIGHT - x / TILE_WIDTH) / 2⌋)

/-- isoToScreen from coordinateUtils.js. -/
def isoToScreen (isoX isoY canvasWidth canvasHeight cameraX cameraY zoom : Rat) : Rat × Rat :=
  ((isoX - isoY) * TILE_WIDTH / 2 * zoom + canvasWidth / 2 + cameraX,
   (isoX + isoY) * TILE_HEIGHT / 2 * zoom + canvasHeight / 2 + cameraY)

/-- One villager, with the fields the simulation logic reads or writes.
Purely cosmetic fields (id, skin/shirt colors, the atan2 facing angle) are
omitted; tile coordinates are integers throughout the source (spawn positions
are tiles and movement snaps to tiles), while the interpolated display
position isoX/isoY is a rational. -/
structure Villager where
  isoX : Rat
  isoY : Rat
  targetTileX : Int
  targetTileY : Int
  currentTileX : Int
  currentTileY : Int
  progress : Rat
  speed : Rat
  idleTime : Rat
  maxIdleTime : Rat
  isMoving : Bool
  moveTimer : Rat
  maxMoveTime : Rat
  markedForRemoval : Bool
deriving DecidableEq, Repr

/-- The random draws one villager's update may consume in one tick: the index
into the reachable list, the index for the fallback adjacent pick, and the
index for the continue-to-next-tile adjacent pick. -/
structure VillagerRand where
  reachIdx : Nat
  adjIdx : Nat
  stepAdjIdx : Nat
deriving Repr

/-- All random draws one VillagerManager.update tick may consume.  Any JS
execution corresponds to some choice of these values. -/
structure TickRand where
  spawnTileIdx : Nat
  spawnSpeed : Rat
  spawnMaxIdle : Rat
  spawnMaxMove : Rat
  villagerRand : Nat → VillagerRand

/-- The mutable state of VillagerManager. -/
structure VillagerManager where
  villagers : List Villager
  lastSpawnTime : Rat

namespace VillagerManager

/-- VillagerManager.spawnInterval (the constructor sets 3000 ms). -/
def spawnInterval : Rat := 3000

/-- The population-derived villager cap: unemployedPopulation during the day,
full population at night (computed identically in spawnVillager and update). -/
def maxVillagers (s : GameState) : Int :=
  if s.isDay then s.unemployedPopulation else s.population

/-- VillagerManager.snapToRoadTile: rounds to the nearest integer tile (the
identity here, because villager current tiles are already integers) and
returns it only when it is a valid road tile. -/
def snapToRoadTile (items : List PlacedItem) (isoX isoY : Int) : Option Tile :=
  if Pathfinder.isValidRoadTile items isoX isoY then some (isoX, isoY) else none

/-- VillagerManager.spawnVillager: refuses when the cap is 0 or reached, or
when there is no valid road tile; otherwise appends one fresh idle villager at
a random road tile. -/
def spawnVillager (s : GameState) (mgr : VillagerManager) (r : TickRand) : VillagerManager :=
  let cap := maxVillagers s
  if cap = 0 ∨ cap ≤ (mgr.villagers.length : Int) then mgr
  else
    match Pathfinder.getRandomRoadTile s.placedItems r.spawnTileIdx with
    | none => mgr
    | some position =>
      { mgr with villagers := mgr.villagers ++ [{
          isoX := (position.1 : Rat), isoY := (position.2 : Rat),
          targetTileX := position.1, targetTileY := position.2,
          currentTileX := position.1, currentTileY := position.2,
          progress := 0, speed := r.spawnSpeed,
          idleTime := 0, maxIdleTime := r.spawnMaxIdle,
          isMoving := false, moveTimer := 0, maxMoveTime := r.spawnMaxMove,
          markedForRemoval := false }] }

/-- The body of the per-villager forEach in VillagerManager.update: validity
check with snap-or-mark-for-removal (an early return), the idle/move timer
state machine with new-target selection, and tile-to-tile interpolation. -/
def updateVillager (items : List PlacedItem) (deltaTime : Rat) (vr : VillagerRand)
    (v : Villager) : Villager :=
  if !Pathfinder.isValidRoadTile items v.currentTileX v.currentTileY then
    match snapToRoadTile items v.currentTileX v.currentTileY with
    | some snapped =>
      -- Unreachable in practice (the snap re-checks the same tile), kept
      -- because the source handles it: snap and fall through as idle below.
      updateVillagerTimers items deltaTime vr
        { v with currentTileX := snapped.1, currentTileY := snapped.2,
                 targetTileX := snapped.1, targetTileY := snapped.2, progress := 0 }
    | none => { v with markedForRemoval := true }
  else
    updateVillagerTimers items deltaTime vr v
where
  /-- The timer update and movement phases, after the validity check. -/
  updateVillagerTimers (items : List PlacedItem) (deltaTime : Rat) (vr : VillagerRand)
      (v : Villager) : Villager :=
    let v1 :=
      if v.isMoving then
        let moveTimer := v.moveTimer + deltaTime
        if v.maxMoveTime ≤ moveTimer then
          { v with isMoving := false, idleTime := 0, moveTimer := 0 }
        else { v with moveTimer := moveTimer }
      else
        let idleTime := v.idleTime + deltaTime
        if v.maxIdleTime ≤ idleTime then
          let v2 := { v with isMoving := true, idleTime := 0, moveTimer := 0 }
          match Pathfinder.findRandomReachableTile items v.currentTileX v.currentTileY 5
              vr.reachIdx with
          | some newTarget =>
            match Pathfinder.findNextStep items v.currentTileX v.currentTileY
                newTarget.1 newTarget.2 with
            | some nextStep =>
              { v2 with targetTileX := nextStep.1, targetTileY := nextStep.2 }
            | none => v2
          | none =>
            match Pathfinder.getRandomAdjacentRoadTile items v.currentTileX v.currentTileY
                vr.adjIdx with
            | some adjacent =>
              { v2 with targetTileX := adjacent.1, targetTileY := adjacent.2 }
            | none => { v2 with isMoving := false }
        else { v with idleTime := idleTime }
    if v1.isMoving then
      if v1.currentTileX = v1.targetTileX ∧ v1.currentTileY = v1.targetTileY then
        match Pathfinder.getRandomAdjacentRoadTile items v1.currentTileX v1.currentTileY
            vr.stepAdjIdx with
        | some nextTile =>
          { v1 with targetTileX := nextTile.1, targetTileY := nextTile.2, progress := 0 }
        | none => { v1 with isMoving := false, idleTime := 0 }
      else
        let progress := v1.progress + v1.speed * deltaTime
        if 1 ≤ progress then
          { v1 with currentTileX := v1.targetTileX, currentTileY := v1.targetTileY,
                    progress := 0, isoX := (v1.targetTileX : Rat),
                    isoY := (v1.targetTileY : Rat) }
        else
          { v1 with progress := progress,
                    isoX := (v1.currentTileX : Rat) +
                      ((v1.targetTileX : Rat) - (v1.currentTileX : Rat)) * progress,
                    isoY := (v1.currentTileY : Rat) +
                      ((v1.targetTileY : Rat) - (v1.currentTileY : Rat)) * progress }
    else
      { v1 with isoX := (v1.currentTileX : Rat), isoY := (v1.currentTileY : Rat) }

/-- The forEach over the villager list, feeding each villager its own random
draws. -/
def updateAll (items : List PlacedItem) (deltaTime : Rat) (r : TickRand) :
    Nat → List Villager → List Villager
  | _, [] => []
  | i, v :: rest =>
    updateVillager items deltaTime (r.villagerRand i) v ::
      updateAll items deltaTime r (i + 1) rest

/-- VillagerManager.update: timed spawn attempt, trim of the oldest excess
villagers when the cap shrank, the per-villager update, and the final filter
removing villagers that are marked for removal or off valid road tiles. -/
def update (s : GameState) (mgr : VillagerManager) (now deltaTime : Rat) (r : TickRand) :
    VillagerManager :=
  let cap := maxVillagers s
  let mgr1 :=
    if 0 < cap ∧ spawnInterval ≤ now - mgr.lastSpawnTime ∧ (mgr.villagers.length : Int) < cap
    then { spawnVillager s mgr r with lastSpawnTime := now }
    else mgr
  let villagers2 :=
    if cap < (mgr1.villagers.length : Int) then
      mgr1.villagers.drop ((mgr1.villagers.length : Int) - cap).toNat
    else mgr1.villagers
  let villagers3 := updateAll s.placedItems deltaTime r 0 villagers2
  let villagers4 := villagers3.filter (fun v =>
    !v.markedForRemoval && Pathfinder.isValidRoadTile s.placedItems v.currentTileX v.currentTileY)
  { villagers := villagers4, lastSpawnTime := mgr1.lastSpawnTime }

end VillagerManager

/-- One user-driven economy operation: a paid placement or a demolition (the
place/remove operations of the claims). -/
inductive EconOp where
  | place (isoX isoY : Int) (type id : String) (flipped : Bool)
  | clear (isoX isoY : Int)

/-- Apply one economy operation (dropping the returned success flag). -/
def applyEconOp (s : GameState) : EconOp → GameState
  | EconOp.place isoX isoY type id flipped => (s.placeItem isoX isoY type id flipped).2
  | EconOp.clear isoX isoY => (s.clearCell isoX isoY).2

/-- Run a sequence of economy operations. -/
def runEconOps (s : GameState) (ops : List EconOp) : GameState :=
  ops.foldl applyEconOp s

/-- The state the GameState constructor produces when no saved state exists:
budget INITIAL_BUDGET, population and unemployed 0, and whatever decorations
initializeInitialMap scattered (free placements never touch the economy
fields, so the item list is left abstract). -/
def initialState (items : List PlacedItem) : GameState :=
  { placedItems := items, budget := INITIAL_BUDGET, population := 0,
    unemployedPopulation := 0, isDay := true }

/-- The sum of populationGranted over a placed-item list, each item read
through the catalog exactly as placeItem and clearCell read it. -/
def totalPopulation (items : List PlacedItem) : Int :=
  (items.map (fun item => GameState.itemPopulation item.type item.id)).sum

/-- Run a sequence of VillagerManager.update ticks; each tick carries the game
state it observes, the current time, the frame delta and its random draws. -/
def runTicks (mgr : VillagerManager) (ticks : List (GameState × Rat × Rat × TickRand)) :
    VillagerManager :=
  ticks.foldl (fun m t => VillagerManager.update t.1 m t.2.1 t.2.2.1 t.2.2.2) mgr

/-! ## Shared lemmas about the catalog and list helpers -/

/-- A property holding for every value in an association list holds for every
successful lookup. -/
theorem lookup_forall {β : Type} (P : β → Prop) :
    ∀ (l : List (String × β)), (∀ e ∈ l, P e.2) → ∀ (k : String) (v : β),
      l.lookup k = some v → P v := by
  intro l hl k v hlk
  induction l with
  | nil => simp [List.lookup] at hlk
  | cons a rest ih =>
    rw [List.lookup] at hlk
    split at hlk
    · cases hlk
      exact hl a (List.mem_cons_self _ _)
    · exact ih (fun e he => hl e (List.mem_cons_of_mem _ he)) hlk

/-- Every catalog entry grants a nonnegative population. -/
theorem lookup_population_nonneg {type id : String} {d : ItemData}
    (h : lookupItemData type id = some d) : 0 ≤ d.population := by
  unfold lookupItemData at h
  split at h
  · exact lookup_forall (fun v => 0 ≤ v.population) BUILDING_DATA (by decide) id d h
  · split at h
    · exact lookup_forall (fun v => 0 ≤ v.population) DECORATION_DATA (by decide) id d h
    · split at h
      · exact lookup_forall (fun v => 0 ≤ v.population) ROAD_DATA (by decide) id d h
      · cases h

/-- Every catalog entry declares a nonnegative worker requirement. -/
theorem lookup_workerReq_nonneg {type id : String} {d : ItemData}
    (h : lookupItemData type id = some d) :
    0 ≤ (match d.requires.lookup "unemployedPopulation" with
         | some (ReqVal.num n) => n
         | _ => 0) := by
  unfold lookupItemData at h
  have P := fun v : ItemData => 0 ≤ (match v.requires.lookup "unemployedPopulation" with
    | some (ReqVal.num n) => n
    | _ => 0)
  split at h
  · exact lookup_forall (fun v => 0 ≤ (match v.requires.lookup "unemployedPopulation" with
      | some (ReqVal.num n) => n
      | _ => 0)) BUILDING_DATA (by decide) id d h
  · split at h
    · exact lookup_forall (fun v => 0 ≤ (match v.requires.lookup "unemployedPopulation" with
        | some (ReqVal.num n) => n
        | _ => 0)) DECORATION_DATA (by decide) id d h
    · split at h
      · exact lookup_forall (fun v => 0 ≤ (match v.requires.lookup "unemployedPopulation" with
          | some (ReqVal.num n) => n
          | _ => 0)) ROAD_DATA (by decide) id d h
      · cases h

/-- itemPopulation is nonnegative for every type/id. -/
theorem itemPopulation_nonneg (type id : String) : 0 ≤ GameState.itemPopulation type id := by
  unfold GameState.itemPopulation
  split
  · cases h : lookupItemData type id with
    | none => simp
    | some d => simpa using lookup_population_nonneg h
  · exact le_refl 0

/-- itemWorkerRequirement is nonnegative for every type/id. -/
theorem itemWorkerRequirement_nonneg (type id : String) :
    0 ≤ GameState.itemWorkerRequirement type id := by
  unfold GameState.itemWorkerRequirement
  cases h : lookupItemData type id with
  | none => simp
  | some d => simpa using lookup_workerReq_nonneg h

/-- The item found by extractAt sits at the requested tile. -/
theorem extractAt_pos :
    ∀ {l : List PlacedItem} {x y : Int} {it : PlacedItem} {rest : List PlacedItem},
      GameState.extractAt l x y = some (it, rest) → it.isoX = x ∧ it.isoY = y := by
  intro l
  induction l with
  | nil => intro x y it rest h; simp [GameState.extractAt] at h
  | cons a as ih =>
    intro x y it rest h
    rw [GameState.extractAt] at h
    split at h
    · rename_i hc
      cases h
      exact hc
    · rename_i hc
      cases hfound : GameState.extractAt as x y with
      | none => rw [hfound] at h; cases h
      | some pr =>
        rw [hfound] at h
        cases h
        exact ih hfound

/-- extractAt removes exactly one element. -/
theorem extractAt_length :
    ∀ {l : List PlacedItem} {x y : Int} {it : PlacedItem} {rest : List PlacedItem},
      GameState.extractAt l x y = some (it, rest) → rest.length + 1 = l.length := by
  intro l
  induction l with
  | nil => intro x y it rest h; simp [GameState.extractAt] at h
  | cons a as ih =>
    intro x y it rest h
    rw [GameState.extractAt] at h
    split at h
    · cases h; rfl
    · cases hfound : GameState.extractAt as x y with
      | none => rw [hfound] at h; cases h
      | some pr =>
        rw [hfound] at h
        cases h
        have := ih hfound
        simp only [List.length_cons]
        omega

/-- Removing the extracted element subtracts exactly its contribution from any
mapped sum. -/
theorem extractAt_map_sum (f : PlacedItem → Int) :
    ∀ {l : List PlacedItem} {x y : Int} {it : PlacedItem} {rest : List PlacedItem},
      GameState.extractAt l x y = some (it, rest) →
      (l.map f).sum = (rest.map f).sum + f it := by
  intro l
  induction l with
  | nil => intro x y it rest h; simp [GameState.extractAt] at h
  | cons a as ih =>
    intro x y it rest h
    rw [GameState.extractAt] at h
    split at h
    · cases h
      simp only [List.map_cons, List.sum_cons]
      ring
    · cases hfound : GameState.extractAt as x y with
      | none => rw [hfound] at h; cases h
      | some pr =>
        rw [hfound] at h
        cases h
        have := ih hfound
        simp only [List.map_cons, List.sum_cons, this]
        ring

/-! ## C10: the free placement/removal variants never touch the economy -/

/-- C10: placeItemFree and removeItemFree leave budget, population and
unemployedWorkers unchanged whether they succeed or fail; on failure the whole
state is unchanged, and on success only the placed-item collection changes
(append of the one new item, respectively removal of the first item at the
tile). -/
theorem C10_free_variants_frame (s : GameState) (x y : Int) (type id : String) (flipped : Bool) :
    ((s.placeItemFree x y type id flipped).2.budget = s.budget ∧
     (s.placeItemFree x y type id flipped).2.population = s.population ∧
     (s.placeItemFree x y type id flipped).2.unemployedPopulation = s.unemployedPopulation ∧
     (s.placeItemFree x y type id flipped).2.isDay = s.isDay) ∧
    ((s.placeItemFree x y type id flipped).1 = false →
      (s.placeItemFree x y type id flipped).2 = s) ∧
    ((s.placeItemFree x y type id flipped).1 = true →
      (s.placeItemFree x y type id flipped).2.placedItems
        = s.placedItems ++ [⟨type, id, x, y, flipped⟩]) ∧
    ((s.removeItemFree x y).2.budget = s.budget ∧
     (s.removeItemFree x y).2.population = s.population ∧
     (s.removeItemFree x y).2.unemployedPopulation = s.unemployedPopulation ∧
     (s.removeItemFree x y).2.isDay = s.isDay) ∧
    ((s.removeItemFree x y).1 = false → (s.removeItemFree x y).2 = s) ∧
    ((s.removeItemFree x y).1 = true → ∃ it rest,
      GameState.extractAt s.placedItems x y = some (it, rest) ∧
      (s.removeItemFree x y).2.placedItems = rest) := by
  refine ⟨?_, ?_, ?_, ?_, ?_, ?_⟩
  · unfold GameState.placeItemFree
    split
    · exact ⟨rfl, rfl, rfl, rfl⟩
    · split
      · exact ⟨rfl, rfl, rfl, rfl⟩
      · exact ⟨rfl, rfl, rfl, rfl⟩
  · unfold GameState.placeItemFree
    split
    · intro _; rfl
    · split
      · intro _; rfl
      · intro h; cases h
  · unfold GameState.placeItemFree
    split
    · intro h; cases h
    · split
      · intro h; cases h
      · intro _; rfl
  · unfold GameState.removeItemFree
    cases GameState.extractAt s.placedItems x y with
    | none => exact ⟨rfl, rfl, rfl, rfl⟩
    | some pr => exact ⟨rfl, rfl, rfl, rfl⟩
  · unfold GameState.removeItemFree
    cases GameState.extractAt s.placedItems x y with
    | none => intro _; rfl
    | some pr => intro h; cases h
  · unfold GameState.removeItemFree
    cases hx : GameState.extractAt s.placedItems x y with
    | none => intro h; cases h
    | some pr => intro _; exact ⟨pr.1, pr.2, rfl, rfl⟩

/-! ## C2: the placeItem success/failure contract -/

/-- C2: placeItem succeeds exactly when the position is valid, the cost is
affordable and every requirement is met; on success it debits exactly the
purchase cost and appends exactly the one new PlacedItem; on any failure it
returns false and the entire state (budget, population, unemployedWorkers,
placed items) is unchanged. -/
theorem C2_placeItem_contract (s : GameState) (x y : Int) (type id : String) (flipped : Bool) :
    ((s.placeItem x y type id flipped).1 = true ↔
      s.isValidPosition x y type id = true ∧ s.canAfford type id = true ∧
      s.checkRequirementsMet type id = true) ∧
    ((s.placeItem x y type id flipped).1 = true →
      (s.placeItem x y type id flipped).2.budget = s.budget - GameState.getItemCost type id ∧
      (s.placeItem x y type id flipped).2.placedItems
        = s.placedItems ++ [⟨type, id, x, y, flipped⟩]) ∧
    ((s.placeItem x y type id flipped).1 = false → (s.placeItem x y type id flipped).2 = s) := by
  cases h1 : s.isValidPosition x y type id with
  | false =>
    have hr : s.placeItem x y type id flipped = (false, s) := by
      unfold GameState.placeItem
      rw [h1]
      rfl
    rw [hr]
    simp [h1]
  | true =>
    cases h2 : s.canAfford type id with
    | false =>
      have hr : s.placeItem x y type id flipped = (false, s) := by
        unfold GameState.placeItem
        rw [h1, h2]
        rfl
      rw [hr]
      simp [h2]
    | true =>
      cases h3 : s.checkRequirementsMet type id with
      | false =>
        have hr : s.placeItem x y type id flipped = (false, s) := by
          unfold GameState.placeItem
          rw [h1, h2, h3]
          rfl
        rw [hr]
        simp [h3]
      | true =>
        refine ⟨?_, fun _ => ⟨?_, ?_⟩, ?_⟩ <;>
          unfold GameState.placeItem <;> rw [h1, h2, h3] <;> simp

/-! ## C3: the clearCell demolition contract -/

/-- getDemolitionCost is floor(cost x multiplier) unconditionally (the cost-0
early return agrees with the floor formula). -/
theorem getDemolitionCost_eq_floor (type id : String) :
    GameState.getDemolitionCost type id
      = ⌊GameState.getItemCost type id *
          (match lookupItemData type id with
           | some d => d.demolitionCostMultiplier.getD 0.5
           | none => 0.5)⌋ := by
  unfold GameState.getDemolitionCost
  cases hL : lookupItemData type id with
  | some d =>
    simp only [hL]
    split_ifs with h0
    · rw [h0, zero_mul]
      simp
    · rfl
  | none =>
    simp only [hL]
    split_ifs with h0
    · rw [h0, zero_mul]
      simp
    · rfl

/-- C3: for a tile holding a placed item (the first item at that tile, with
purchase cost c and demolition multiplier r), clearCell fails leaving the
state unchanged whenever the budget is below floor(c * r), and a successful
clearCell debits exactly floor(c * r) and removes exactly that one item. -/
theorem C3_clearCell_contract (s : GameState) (x y : Int) (it : PlacedItem)
    (rest : List PlacedItem)
    (hx : GameState.extractAt s.placedItems x y = some (it, rest)) :
    (s.budget < (⌊GameState.getItemCost it.type it.id *
        (match lookupItemData it.type it.id with
         | some d => d.demolitionCostMultiplier.getD 0.5
         | none => 0.5)⌋ : Int) →
      (s.clearCell x y).1 = false ∧ (s.clearCell x y).2 = s) ∧
    ((s.clearCell x y).1 = true →
      (s.clearCell x y).2.budget = s.budget - (⌊GameState.getItemCost it.type it.id *
        (match lookupItemData it.type it.id with
         | some d => d.demolitionCostMultiplier.getD 0.5
         | none => 0.5)⌋ : Int) ∧
      (s.clearCell x y).2.placedItems = rest ∧
      rest.length + 1 = s.placedItems.length ∧
      it.isoX = x ∧ it.isoY = y) := by
  have hpos := extractAt_pos hx
  have hlen := extractAt_length hx
  rw [← getDemolitionCost_eq_floor]
  unfold GameState.clearCell
  rw [hx]
  constructor
  · intro hb
    split
    · exact ⟨rfl, rfl⟩
    · rename_i item remaining heq
      injection heq with hpair
      injection hpair with h1 h2
      subst h1
      subst h2
      split
      · exact ⟨rfl, rfl⟩
      · split
        · exact ⟨rfl, rfl⟩
        · dsimp only
          rw [if_pos hb]
          exact ⟨rfl, rfl⟩
  · split
    · intro hs; cases hs
    · rename_i item remaining heq
      injection heq with hpair
      injection hpair with h1 h2
      subst h1
      subst h2
      split
      · intro hs; cases hs
      · split
        · intro hs; cases hs
        · dsimp only
          split
          · intro hs; cases hs
          · intro _
            exact ⟨rfl, rfl, hlen, hpos.1, hpos.2⟩

/-- Witness for C3 at a concrete input: one dirt road at the origin with
budget 800; demolition debits floor(10 * 0.5) = 5. -/
theorem C3_clearCell_contract_witness :
    ((⟨[⟨"road", "dirt", 0, 0, false⟩], 800, 0, 0, true⟩ : GameState).clearCell 0 0).1 = true ∧
    ((⟨[⟨"road", "dirt", 0, 0, false⟩], 800, 0, 0, true⟩ : GameState).clearCell 0 0).2.budget
      = 795 := by
  have h := C3_clearCell_contract ⟨[⟨"road", "dirt", 0, 0, false⟩], 800, 0, 0, true⟩ 0 0
    ⟨"road", "dirt", 0, 0, false⟩ [] (by rfl)
  have hd : GameState.getDemolitionCost "road" "dirt" = 5 := by
    have hlk : lookupItemData "road" "dirt"
        = some { cost := 10, demolitionCostMultiplier := some 0.5,
                 allowAdjacentPlacement := true } := rfl
    unfold GameState.getDemolitionCost GameState.getItemCost
    rw [hlk]
    dsimp only [Option.getD]
    norm_num
  have hs : ((⟨[⟨"road", "dirt", 0, 0, false⟩], 800, 0, 0, true⟩ : GameState).clearCell 0 0).1
      = true := by
    unfold GameState.clearCell
    rw [show GameState.extractAt [⟨"road", "dirt", 0, 0, false⟩] 0 0
        = some (⟨"road", "dirt", 0, 0, false⟩, []) from rfl]
    split
    · rename_i heq
      exact Option.noConfusion heq
    · rename_i item remaining heq
      injection heq with hpair
      injection hpair with h1 h2
      subst h1
      subst h2
      rw [if_neg (by decide), if_neg (by decide)]
      dsimp only
      rw [hd, if_neg (by norm_num)]
  refine ⟨hs, ?_⟩
  rw [(h.2 hs).1]
  have hfloor : (⌊GameState.getItemCost "road" "dirt" *
      (match lookupItemData "road" "dirt" with
       | some d => d.demolitionCostMultiplier.getD 0.5
       | none => 0.5)⌋ : Int) = 5 := by
    rw [← getDemolitionCost_eq_floor]
    exact hd
  rw [hfloor]
  norm_num

/-! ## C8: the coordinate round trip -/

/-- C8 (amended): with identity camera offset and zoom 1, tileToWorld followed
by worldToScreen and then screenToTile (the inverse world-to-tile transform
used by mouse input) recovers every integer tile exactly, for every canvas
size. -/
theorem C8_tile_roundtrip_screenToTile (tx ty : Int) (canvasWidth canvasHeight : Rat) :
    screenToTile
      (worldToScreen (tileToWorld tx ty).1 (tileToWorld tx ty).2
        canvasWidth canvasHeight 0 0 1).1
      (worldToScreen (tileToWorld tx ty).1 (tileToWorld tx ty).2
        canvasWidth canvasHeight 0 0 1).2
      canvasWidth canvasHeight 0 0 1 = (tx, ty) := by
  unfold screenToTile screenToWorld worldToScreen tileToWorld TILE_WIDTH TILE_HEIGHT
  dsimp only
  rw [Prod.ext_iff]
  constructor
  · show ⌊_⌋ = tx
    ring_nf
    exact Int.floor_intCast tx
  · show ⌊_⌋ = ty
    ring_nf
    exact Int.floor_intCast ty

/-- C8 counterexample: the same round trip through screenToIso (the renderer's
inverse, which divides by the full tile extents) maps tile (1, 0) to (0, 0),
so the claim that both compositions recover every tile is false. -/
theorem C8_counterexample_screenToIso :
    screenToIso
      (worldToScreen (tileToWorld 1 0).1 (tileToWorld 1 0).2 0 0 0 0 1).1
      (worldToScreen (tileToWorld 1 0).1 (tileToWorld 1 0).2 0 0 0 0 1).2
      0 0 0 0 1 = ((0 : Int), (0 : Int)) ∧
    screenToIso
      (worldToScreen (tileToWorld 1 0).1 (tileToWorld 1 0).2 0 0 0 0 1).1
      (worldToScreen (tileToWorld 1 0).1 (tileToWorld 1 0).2 0 0 0 0 1).2
      0 0 0 0 1 ≠ ((1 : Int), (0 : Int)) := by
  have hval : screenToIso
      (worldToScreen (tileToWorld 1 0).1 (tileToWorld 1 0).2 0 0 0 0 1).1
      (worldToScreen (tileToWorld 1 0).1 (tileToWorld 1 0).2 0 0 0 0 1).2
      0 0 0 0 1 = ((0 : Int), (0 : Int)) := by
    unfold screenToIso worldToScreen tileToWorld TILE_WIDTH TILE_HEIGHT
    dsimp only
    rw [Prod.ext_iff]
    constructor
    · show ⌊_⌋ = 0
      norm_num
    · show ⌊_⌋ = 0
      norm_num
  refine ⟨hval, ?_⟩
  rw [hval]
  intro hc
  rw [Prod.ext_iff] at hc
  exact absurd hc.1 (by decide)

/-! ## C1: the unemployed-workers invariant -/

/-- placeItem preserves 0 <= unemployed <= population. -/
theorem placeItem_unemp_inv (s : GameState) (x y : Int) (type id : String) (flipped : Bool)
    (h0 : 0 ≤ s.unemployedPopulation) (h1 : s.unemployedPopulation ≤ s.population) :
    0 ≤ (s.placeItem x y type id flipped).2.unemployedPopulation ∧
    (s.placeItem x y type id flipped).2.unemployedPopulation
      ≤ (s.placeItem x y type id flipped).2.population := by
  have hp := itemPopulation_nonneg type id
  have hw := itemWorkerRequirement_nonneg type id
  unfold GameState.placeItem
  split
  · exact ⟨h0, h1⟩
  · split
    · exact ⟨h0, h1⟩
    · split
      · exact ⟨h0, h1⟩
      · dsimp only
        split_ifs <;> constructor <;> omega

/-- clearCell preserves 0 <= unemployed <= population. -/
theorem clearCell_unemp_inv (s : GameState) (x y : Int)
    (h0 : 0 ≤ s.unemployedPopulation) (h1 : s.unemployedPopulation ≤ s.population) :
    0 ≤ (s.clearCell x y).2.unemployedPopulation ∧
    (s.clearCell x y).2.unemployedPopulation ≤ (s.clearCell x y).2.population := by
  unfold GameState.clearCell
  split
  · exact ⟨h0, h1⟩
  · rename_i item remaining heq
    have hp := itemPopulation_nonneg item.type item.id
    have hw := itemWorkerRequirement_nonneg item.type item.id
    split
    · exact ⟨h0, h1⟩
    · split
      · exact ⟨h0, h1⟩
      · dsimp only
        split
        · exact ⟨h0, h1⟩
        · dsimp only
          split_ifs <;> constructor <;> omega

/-- C1: after every sequence of place/remove operations from the initial
state (budget 800, population 0, unemployed 0, any initial decorations), the
unemployed-worker count satisfies 0 <= unemployedWorkers <= population. -/
theorem C1_unemployed_invariant (items : List PlacedItem) (ops : List EconOp) :
    0 ≤ (runEconOps (initialState items) ops).unemployedPopulation ∧
    (runEconOps (initialState items) ops).unemployedPopulation
      ≤ (runEconOps (initialState items) ops).population := by
  suffices h : ∀ (s : GameState), 0 ≤ s.unemployedPopulation →
      s.unemployedPopulation ≤ s.population →
      0 ≤ (runEconOps s ops).unemployedPopulation ∧
      (runEconOps s ops).unemployedPopulation ≤ (runEconOps s ops).population by
    exact h (initialState items) (le_refl 0) (le_refl 0)
  induction ops with
  | nil => exact fun s h0 h1 => ⟨h0, h1⟩
  | cons op rest ih =>
    intro s h0 h1
    show 0 ≤ (runEconOps (applyEconOp s op) rest).unemployedPopulation ∧ _
    cases op with
    | place isoX isoY type id flipped =>
      have hstep := placeItem_unemp_inv s isoX isoY type id flipped h0 h1
      exact ih _ hstep.1 hstep.2
    | clear isoX isoY =>
      have hstep := clearCell_unemp_inv s isoX isoY h0 h1
      exact ih _ hstep.1 hstep.2

/-! ## C4: workforce allocation on placement -/

/-- C4: every successful placement of a building granting population p (any
p, including 0) with worker requirement w sets the new population to
s.population + p and the new unemployed count to
max 0 (u + (p - min p shortage) - w), where the shortage is computed against
the post-placement total required workers: the new settlers preferentially
cover the shortage, only the remainder joins the unemployed, and the item's
own requirement converts w workers from unemployed to employed, clamped at 0.
In particular for the worker-requiring catalog items, which all grant no
population, the unemployed count becomes exactly max 0 (u - w) (all under the
standing invariant 0 <= unemployed <= population). -/
theorem C4_placement_workforce (s : GameState) (x y : Int) (id : String) (flipped : Bool)
    (d : ItemData)
    (h0 : 0 ≤ s.unemployedPopulation) (h1 : s.unemployedPopulation ≤ s.population)
    (hd : lookupItemData "building" id = some d)
    (hs : (s.placeItem x y "building" id flipped).1 = true) :
    (s.placeItem x y "building" id flipped).2.population = s.population + d.population ∧
    (s.placeItem x y "building" id flipped).2.unemployedPopulation
      = max 0 (s.unemployedPopulation
          + (d.population - min d.population
              (max 0 ((GameState.calculateWorkersRequired s.placedItems
                        + GameState.itemWorkerRequirement "building" id)
                      - (s.population - s.unemployedPopulation))))
          - GameState.itemWorkerRequirement "building" id) ∧
    (d.population = 0 →
      (s.placeItem x y "building" id flipped).2.unemployedPopulation
        = max 0 (s.unemployedPopulation
            - GameState.itemWorkerRequirement "building" id)) := by
  have hpi : GameState.itemPopulation "building" id = d.population := by
    unfold GameState.itemPopulation
    rw [if_pos rfl, hd]
  have hp0 : 0 ≤ d.population := by
    rw [← hpi]
    exact itemPopulation_nonneg "building" id
  have hw := itemWorkerRequirement_nonneg "building" id
  revert hs
  unfold GameState.placeItem
  split
  · intro hs; cases hs
  · split
    · intro hs; cases hs
    · split
      · intro hs; cases hs
      · intro _
        dsimp only
        rw [hpi]
        split_ifs <;> refine ⟨by omega, by omega, fun hp => by omega⟩

/-- Witness for C4 at a concrete input exercising the worker-conversion
clause: a road at (0,0), budget 800, population 2 with 2 unemployed, then a
wheat field (grants no population, requires 1 unemployed worker) placed at
(1,0): the placement succeeds, population stays 2, and one worker converts
from unemployed to employed, leaving max 0 (2 - 1) = 1 unemployed. -/
theorem C4_placement_workforce_witness :
    ((⟨[⟨"road", "dirt", 0, 0, false⟩], 800, 2, 2, true⟩ : GameState).placeItem
        1 0 "building" "wheat" false).1 = true ∧
    ((⟨[⟨"road", "dirt", 0, 0, false⟩], 800, 2, 2, true⟩ : GameState).placeItem
        1 0 "building" "wheat" false).2.population = 2 + 0 ∧
    ((⟨[⟨"road", "dirt", 0, 0, false⟩], 800, 2, 2, true⟩ : GameState).placeItem
        1 0 "building" "wheat" false).2.unemployedPopulation
      = max 0 (2 - GameState.itemWorkerRequirement "building" "wheat") := by
  have hvalid : (⟨[⟨"road", "dirt", 0, 0, false⟩], 800, 2, 2, true⟩ : GameState).isValidPosition
      1 0 "building" "wheat" = true := by decide
  have hreq : (⟨[⟨"road", "dirt", 0, 0, false⟩], 800, 2, 2, true⟩ : GameState).checkRequirementsMet
      "building" "wheat" = true := by decide
  have hafford : (⟨[⟨"road", "dirt", 0, 0, false⟩], 800, 2, 2, true⟩ : GameState).canAfford
      "building" "wheat" = true := by
    unfold GameState.canAfford GameState.getItemCost
    rw [show lookupItemData "building" "wheat"
        = some { cost := 110, demolitionCostMultiplier := some 0.1,
                 requires := [("unemployedPopulation", ReqVal.num 1)],
                 allowAdjacentPlacement := true } from rfl]
    norm_num
  have hs : ((⟨[⟨"road", "dirt", 0, 0, false⟩], 800, 2, 2, true⟩ : GameState).placeItem
      1 0 "building" "wheat" false).1 = true := by
    unfold GameState.placeItem
    rw [hvalid, hafford, hreq]
    rfl
  have h := C4_placement_workforce ⟨[⟨"road", "dirt", 0, 0, false⟩], 800, 2, 2, true⟩ 1 0
    "wheat" false
    { cost := 110, demolitionCostMultiplier := some 0.1,
      requires := [("unemployedPopulation", ReqVal.num 1)], allowAdjacentPlacement := true }
    (by decide) (by decide) rfl hs
  exact ⟨hs, h.1, h.2.2 rfl⟩

/-! ## C5: population = sum of granted population (corrected) -/

/-- totalPopulation is nonnegative (every catalog grant is nonnegative). -/
theorem totalPopulation_nonneg (items : List PlacedItem) : 0 ≤ totalPopulation items := by
  unfold totalPopulation
  apply List.sum_nonneg
  intro a ha
  obtain ⟨item, _, rfl⟩ := List.mem_map.mp ha
  exact itemPopulation_nonneg item.type item.id

/-- totalPopulation over an append with one new item. -/
theorem totalPopulation_append (items : List PlacedItem) (it : PlacedItem) :
    totalPopulation (items ++ [it]) = totalPopulation items
      + GameState.itemPopulation it.type it.id := by
  unfold totalPopulation
  rw [List.map_append, List.sum_append]
  simp

/-- C5 counterexample: from the empty initial state (population 0, invariant
holds), a free placement of a house1 building succeeds, adds an item granting
population 2, and leaves population at 0, violating
population = sum of populationGranted. -/
theorem C5_counterexample_free_place :
    ((⟨[], 800, 0, 0, true⟩ : GameState).population
      = totalPopulation (⟨[], 800, 0, 0, true⟩ : GameState).placedItems) ∧
    ((⟨[], 800, 0, 0, true⟩ : GameState).placeItemFree 0 0 "building" "house1" false).1 = true ∧
    ((⟨[], 800, 0, 0, true⟩ : GameState).placeItemFree 0 0 "building" "house1" false).2.population
      ≠ totalPopulation
          ((⟨[], 800, 0, 0, true⟩ : GameState).placeItemFree
            0 0 "building" "house1" false).2.placedItems := by
  refine ⟨rfl, rfl, ?_⟩
  intro hc
  rw [show ((⟨[], 800, 0, 0, true⟩ : GameState).placeItemFree 0 0 "building" "house1" false).2
      = ⟨[⟨"building", "house1", 0, 0, false⟩], 800, 0, 0, true⟩ from rfl] at hc
  rw [show totalPopulation [⟨"building", "house1", 0, 0, false⟩] = 2 by decide] at hc
  exact absurd hc (by decide)

/-- C5 (amended): population = sum of populationGranted over placed items is
preserved by every paid placement and demolition (hence holds in every state
reachable from the initial state through place/remove), and by the free
variants exactly when the item involved grants no population; the free
variants never update population, so free-placing a population-granting
building breaks the invariant (see the counterexample). -/
theorem C5_population_invariant_amended (s : GameState) (x y : Int) (type id : String)
    (flipped : Bool)
    (hInv : s.population = totalPopulation s.placedItems) :
    ((s.placeItem x y type id flipped).2.population
      = totalPopulation (s.placeItem x y type id flipped).2.placedItems) ∧
    ((s.clearCell x y).2.population = totalPopulation (s.clearCell x y).2.placedItems) ∧
    (GameState.itemPopulation type id = 0 →
      (s.placeItemFree x y type id flipped).2.population
        = totalPopulation (s.placeItemFree x y type id flipped).2.placedItems) ∧
    ((∀ it rest, GameState.extractAt s.placedItems x y = some (it, rest) →
        GameState.itemPopulation it.type it.id = 0) →
      (s.removeItemFree x y).2.population
        = totalPopulation (s.removeItemFree x y).2.placedItems) ∧
    (∀ ops : List EconOp, (runEconOps s ops).population
      = totalPopulation (runEconOps s ops).placedItems) := by
  have hplace : ∀ (s1 : GameState) (x1 y1 : Int) (t1 i1 : String) (f1 : Bool),
      s1.population = totalPopulation s1.placedItems →
      (s1.placeItem x1 y1 t1 i1 f1).2.population
        = totalPopulation (s1.placeItem x1 y1 t1 i1 f1).2.placedItems := by
    intro s1 x1 y1 t1 i1 f1 hInv1
    unfold GameState.placeItem
    split
    · exact hInv1
    · split
      · exact hInv1
      · split
        · exact hInv1
        · dsimp only
          rw [totalPopulation_append]
          dsimp only
          split_ifs with hz
          · omega
          · omega
  have hclear : ∀ (s1 : GameState) (x1 y1 : Int),
      s1.population = totalPopulation s1.placedItems →
      (s1.clearCell x1 y1).2.population = totalPopulation (s1.clearCell x1 y1).2.placedItems := by
    intro s1 x1 y1 hInv1
    unfold GameState.clearCell
    split
    · exact hInv1
    · rename_i item remaining heq
      have hsum := extractAt_map_sum (fun it => GameState.itemPopulation it.type it.id) heq
      dsimp only at hsum
      have hpos := itemPopulation_nonneg item.type item.id
      have hrest : 0 ≤ totalPopulation remaining := totalPopulation_nonneg remaining
      split
      · exact hInv1
      · split
        · exact hInv1
        · dsimp only
          split
          · exact hInv1
          · dsimp only
            unfold totalPopulation at hInv1 hrest ⊢
            split_ifs with hz
            · omega
            · omega
  refine ⟨hplace s x y type id flipped hInv, hclear s x y hInv, ?_, ?_, ?_⟩
  · intro hzero
    unfold GameState.placeItemFree
    split
    · exact hInv
    · split
      · exact hInv
      · dsimp only
        rw [totalPopulation_append, hzero]
        omega
  · intro hzero
    unfold GameState.removeItemFree
    split
    · exact hInv
    · rename_i item remaining heq
      have hsum := extractAt_map_sum (fun it => GameState.itemPopulation it.type it.id) heq
      dsimp only at hsum
      have hz := hzero item remaining heq
      unfold totalPopulation at hInv ⊢
      dsimp only
      omega
  · intro ops
    induction ops generalizing s with
    | nil => exact hInv
    | cons op rest ih =>
      show (runEconOps (applyEconOp s op) rest).population = _
      cases op with
      | place x1 y1 t1 i1 f1 => exact ih _ (hplace s x1 y1 t1 i1 f1 hInv)
      | clear x1 y1 => exact ih _ (hclear s x1 y1 hInv)

/-- Witness for C5 (amended) at the empty initial state, with a dirt road as
the operand item. -/
theorem C5_population_invariant_amended_witness :
    ((⟨[], 800, 0, 0, true⟩ : GameState).placeItem 0 0 "road" "dirt" false).2.population
      = totalPopulation
          ((⟨[], 800, 0, 0, true⟩ : GameState).placeItem 0 0 "road" "dirt" false).2.placedItems ∧
    (∀ ops : List EconOp,
      (runEconOps (⟨[], 800, 0, 0, true⟩ : GameState) ops).population
        = totalPopulation (runEconOps (⟨[], 800, 0, 0, true⟩ : GameState) ops).placedItems) := by
  have h := C5_population_invariant_amended ⟨[], 800, 0, 0, true⟩ 0 0 "road" "dirt" false rfl
  exact ⟨h.1, h.2.2.2.2⟩

/-! ## C9: the villager spawn cap -/

/-- The per-villager update pass preserves the villager count. -/
theorem updateAll_length (items : List PlacedItem) (deltaTime : Rat) (r : TickRand) :
    ∀ (i : Nat) (vs : List Villager),
      (VillagerManager.updateAll items deltaTime r i vs).length = vs.length := by
  intro i vs
  induction vs generalizing i with
  | nil => rfl
  | cons v rest ih =>
    show (_ :: VillagerManager.updateAll items deltaTime r (i + 1) rest).length = _
    rw [List.length_cons, List.length_cons, ih]

/-- Trimming to the cap bounds the list length by the cap. -/
theorem trim_bound (cap : Int) (vs : List Villager) :
    (if cap < (vs.length : Int) then vs.drop ((vs.length : Int) - cap).toNat else vs).length
      ≤ cap.toNat := by
  split_ifs with h
  · rw [List.length_drop]
    omega
  · omega

/-- After one update tick the villager count never exceeds the cap. -/
theorem update_cap_bound (s : GameState) (mgr : VillagerManager) (now deltaTime : Rat)
    (r : TickRand) :
    (VillagerManager.update s mgr now deltaTime r).villagers.length
      ≤ (VillagerManager.maxVillagers s).toNat := by
  unfold VillagerManager.update
  dsimp only
  refine le_trans (List.length_filter_le _ _) ?_
  rw [updateAll_length]
  exact trim_bound _ _

/-- A cap of zero leaves no villager after the tick. -/
theorem update_cap_zero (s : GameState) (mgr : VillagerManager) (now deltaTime : Rat)
    (r : TickRand) (hcap : VillagerManager.maxVillagers s = 0) :
    (VillagerManager.update s mgr now deltaTime r).villagers = [] := by
  have hb := update_cap_bound s mgr now deltaTime r
  rw [hcap] at hb
  exact List.length_eq_zero.mp (Nat.le_zero.mp hb)

/-- C9: at the end of every simulation tick the villager collection respects
the population-derived cap (unemployedPopulation by day, population by
night); with cap 0 the tick ends with no villagers at all, and across any
nonempty sequence of ticks whose observed caps are all 0 no villager ever
survives a tick, regardless of how many ticks elapse. -/
theorem C9_villager_cap (s : GameState) (mgr : VillagerManager) (now deltaTime : Rat)
    (r : TickRand) :
    ((VillagerManager.update s mgr now deltaTime r).villagers.length
      ≤ (VillagerManager.maxVillagers s).toNat) ∧
    (VillagerManager.maxVillagers s = 0 →
      (VillagerManager.update s mgr now deltaTime r).villagers = []) ∧
    (∀ (mgr0 : VillagerManager) (ticks : List (GameState × Rat × Rat × TickRand)),
      (∀ tk ∈ ticks, VillagerManager.maxVillagers tk.1 = 0) → ticks ≠ [] →
      (runTicks mgr0 ticks).villagers = []) := by
  refine ⟨update_cap_bound s mgr now deltaTime r, update_cap_zero s mgr now deltaTime r, ?_⟩
  intro mgr0 ticks
  induction ticks generalizing mgr0 with
  | nil => intro _ hne; exact absurd rfl hne
  | cons tk rest ih =>
    intro hall _
    show (runTicks (VillagerManager.update tk.1 mgr0 tk.2.1 tk.2.2.1 tk.2.2.2) rest).villagers = []
    cases rest with
    | nil =>
      exact update_cap_zero tk.1 mgr0 tk.2.1 tk.2.2.1 tk.2.2.2
        (hall tk (List.mem_cons_self _ _))
    | cons tk2 rest2 =>
      exact ih _ (fun a ha => hall a (List.mem_cons_of_mem _ ha)) (by simp)

/-! ## C6 and C7: the BFS reachability search -/

/-- The BFS queue processed entry by entry equals the level-by-level machine:
a queue holding the rest of the level-d frontier followed by the level-(d+1)
entries collected so far behaves exactly like folding the frontier with
procLevel and continuing with levCont. -/
theorem bfsLoop_eq_levCont (items : List PlacedItem) (maxD : Nat) (fuel d : Nat)
    (cur next visited reach : List Tile) (hfd : maxD = d + fuel)
    (hnext : next ≠ [] → 0 < fuel) :
    Pathfinder.bfsLoop items maxD
        (cur.map (fun p => ⟨p.1, p.2, d⟩) ++ next.map (fun p => ⟨p.1, p.2, d + 1⟩))
        visited reach
      = Pathfinder.levCont items maxD fuel d
          (cur.foldl (Pathfinder.procLevel items maxD d) (visited, next, reach)) := by
  cases cur with
  | nil =>
    cases fuel with
    | zero =>
      have hn : next = [] := by
        cases next with
        | nil => rfl
        | cons a l => exact absurd (hnext (by simp)) (by omega)
      subst hn
      simp only [List.map_nil, List.nil_append, List.foldl_nil]
      rw [Pathfinder.bfsLoop, Pathfinder.levCont]
    | succ k =>
      simp only [List.map_nil, List.nil_append, List.foldl_nil]
      rw [Pathfinder.levCont]
      have ih := bfsLoop_eq_levCont items maxD k (d + 1) next [] visited reach
        (by omega) (fun h => absurd rfl h)
      rw [List.map_nil, List.append_nil] at ih
      exact ih
  | cons p cs =>
    simp only [List.map_cons, List.cons_append, List.foldl_cons]
    rw [Pathfinder.bfsLoop]
    simp only [Prod.mk.eta]
    by_cases hmem : p ∈ visited
    · rw [if_pos hmem]
      rw [show Pathfinder.procLevel items maxD d (visited, next, reach) p
          = (visited, next, reach) from by rw [Pathfinder.procLevel, if_pos hmem]]
      exact bfsLoop_eq_levCont items maxD fuel d cs next visited reach hfd hnext
    · rw [if_neg hmem]
      rw [show Pathfinder.procLevel items maxD d (visited, next, reach) p
          = (p :: visited,
             if d < maxD then
               next ++ (Pathfinder.getAdjacentRoadTiles items p.1 p.2).filter
                 (fun t => decide (t ∉ p :: visited))
             else next,
             if 0 < d then reach ++ [p] else reach) from by
        rw [Pathfinder.procLevel, if_neg hmem]]
      by_cases hD : d < maxD
      · rw [if_pos hD, if_pos hD]
        have ih := bfsLoop_eq_levCont items maxD fuel d cs
          (next ++ (Pathfinder.getAdjacentRoadTiles items p.1 p.2).filter
            (fun t => decide (t ∉ p :: visited)))
          (p :: visited) (if 0 < d then reach ++ [p] else reach) hfd
          (fun _ => by omega)
        rw [← ih]
        rw [List.map_append, ← List.append_assoc]
      · rw [if_neg hD, if_neg hD]
        exact bfsLoop_eq_levCont items maxD fuel d cs next (p :: visited)
          (if 0 < d then reach ++ [p] else reach) hfd hnext
termination_by (fuel, cur.length)

/-- reachableTiles as the level machine seeded with the start tile. -/
theorem reachableTiles_eq_levCont (items : List PlacedItem) (sx sy : Int) (maxD : Nat) :
    Pathfinder.reachableTiles items sx sy maxD
      = if Pathfinder.isValidRoadTile items sx sy then
          Pathfinder.levCont items maxD maxD 0
            ([((sx, sy))].foldl (Pathfinder.procLevel items maxD 0) ([], [], []))
        else [] := by
  unfold Pathfinder.reachableTiles
  split
  · have h := bfsLoop_eq_levCont items maxD maxD 0 [(sx, sy)] [] [] []
      (by omega) (fun h => absurd rfl h)
    simpa using h
  · rfl

/-- Folding a level never drops a visited tile. -/
theorem foldProc_visited_mono (items : List PlacedItem) (maxD d : Nat) :
    ∀ (cur : List Tile) (st : List Tile × List Tile × List Tile) (a : Tile),
      a ∈ st.1 → a ∈ (cur.foldl (Pathfinder.procLevel items maxD d) st).1 := by
  intro cur
  induction cur with
  | nil => exact fun st a h => h
  | cons p cs ih =>
    intro st a h
    rw [List.foldl_cons]
    apply ih
    unfold Pathfinder.procLevel
    split
    · exact h
    · exact List.mem_cons_of_mem _ h

/-- Folding a level never drops a collected frontier tile. -/
theorem foldProc_next_mono (items : List PlacedItem) (maxD d : Nat) :
    ∀ (cur : List Tile) (st : List Tile × List Tile × List Tile) (a : Tile),
      a ∈ st.2.1 → a ∈ (cur.foldl (Pathfinder.procLevel items maxD d) st).2.1 := by
  intro cur
  induction cur with
  | nil => exact fun st a h => h
  | cons p cs ih =>
    intro st a h
    rw [List.foldl_cons]
    apply ih
    unfold Pathfinder.procLevel
    split
    · exact h
    · dsimp only
      split
      · exact List.mem_append_left _ h
      · exact h

/-- Folding a level never drops a reachable tile. -/
theorem foldProc_reach_mono (items : List PlacedItem) (maxD d : Nat) :
    ∀ (cur : List Tile) (st : List Tile × List Tile × List Tile) (a : Tile),
      a ∈ st.2.2 → a ∈ (cur.foldl (Pathfinder.procLevel items maxD d) st).2.2 := by
  intro cur
  induction cur with
  | nil => exact fun st a h => h
  | cons p cs ih =>
    intro st a h
    rw [List.foldl_cons]
    apply ih
    unfold Pathfinder.procLevel
    split
    · exact h
    · dsimp only
      split
      · exact List.mem_append_left _ h
      · exact h

/-- Every visited tile after a fold was visited before or sits in the level. -/
theorem foldProc_visited_sub (items : List PlacedItem) (maxD d : Nat) :
    ∀ (cur : List Tile) (st : List Tile × List Tile × List Tile) (a : Tile),
      a ∈ (cur.foldl (Pathfinder.procLevel items maxD d) st).1 → a ∈ st.1 ∨ a ∈ cur := by
  intro cur
  induction cur with
  | nil => exact fun st a h => Or.inl h
  | cons p cs ih =>
    intro st a h
    rw [List.foldl_cons] at h
    rcases ih _ a h with hv | hc
    · unfold Pathfinder.procLevel at hv
      split at hv
      · exact Or.inl hv
      · rcases List.mem_cons.mp hv with rfl | hv2
        · exact Or.inr (List.mem_cons_self _ _)
        · exact Or.inl hv2
    · exact Or.inr (List.mem_cons_of_mem _ hc)

/-- Every collected reachable tile after a fold was reachable before, or is an
unvisited member of the level (and levels are only collected at depth > 0). -/
theorem foldProc_reach_sub (items : List PlacedItem) (maxD d : Nat) :
    ∀ (cur : List Tile) (st : List Tile × List Tile × List Tile) (a : Tile),
      a ∈ (cur.foldl (Pathfinder.procLevel items maxD d) st).2.2 →
      a ∈ st.2.2 ∨ (0 < d ∧ a ∈ cur ∧ a ∉ st.1) := by
  intro cur
  induction cur with
  | nil => exact fun st a h => Or.inl h
  | cons p cs ih =>
    intro st a h
    rw [List.foldl_cons] at h
    rcases ih _ a h with hr | ⟨hd, hc, hnv⟩
    · unfold Pathfinder.procLevel at hr
      split at hr
      · exact Or.inl hr
      · rename_i hpv
        dsimp only at hr
        split at hr
        · rcases List.mem_append.mp hr with hr2 | hr2
          · exact Or.inl hr2
          · rename_i hd
            rcases List.mem_singleton.mp hr2 with rfl
            exact Or.inr ⟨hd, List.mem_cons_self _ _, hpv⟩
        · exact Or.inl hr
    · refine Or.inr ⟨hd, List.mem_cons_of_mem _ hc, ?_⟩
      intro hin
      apply hnv
      unfold Pathfinder.procLevel
      split
      · exact hin
      · exact List.mem_cons_of_mem _ hin

/-- Every frontier tile collected by a fold was there before or is adjacent to
some tile of the level. -/
theorem foldProc_next_sub (items : List PlacedItem) (maxD d : Nat) :
    ∀ (cur : List Tile) (st : List Tile × List Tile × List Tile) (a : Tile),
      a ∈ (cur.foldl (Pathfinder.procLevel items maxD d) st).2.1 →
      a ∈ st.2.1 ∨ ∃ p ∈ cur, a ∈ Pathfinder.getAdjacentRoadTiles items p.1 p.2 := by
  intro cur
  induction cur with
  | nil => exact fun st a h => Or.inl h
  | cons p cs ih =>
    intro st a h
    rw [List.foldl_cons] at h
    rcases ih _ a h with hn | ⟨p0, hp0, ha⟩
    · unfold Pathfinder.procLevel at hn
      split at hn
      · exact Or.inl hn
      · dsimp only at hn
        split at hn
        · rcases List.mem_append.mp hn with hn2 | hn2
          · exact Or.inl hn2
          · exact Or.inr ⟨p, List.mem_cons_self _ _, (List.mem_filter.mp hn2).1⟩
        · exact Or.inl hn
    · exact Or.inr ⟨p0, List.mem_cons_of_mem _ hp0, ha⟩

/-- Processing a tile of the level marks it visited. -/
theorem foldProc_cur_visited (items : List PlacedItem) (maxD d : Nat) :
    ∀ (cur : List Tile) (st : List Tile × List Tile × List Tile) (p : Tile),
      p ∈ cur → p ∈ (cur.foldl (Pathfinder.procLevel items maxD d) st).1 := by
  intro cur
  induction cur with
  | nil => exact fun st p h => absurd h (List.not_mem_nil p)
  | cons q cs ih =>
    intro st p hp
    rw [List.foldl_cons]
    rcases List.mem_cons.mp hp with rfl | hp2
    · apply foldProc_visited_mono
      unfold Pathfinder.procLevel
      split
      · assumption
      · exact List.mem_cons_self _ _
    · exact ih _ p hp2

/-- At positive depth, an unvisited tile of the level is collected as reachable. -/
theorem foldProc_collect (items : List PlacedItem) (maxD d : Nat) (hd : 0 < d) :
    ∀ (cur : List Tile) (st : List Tile × List Tile × List Tile) (q : Tile),
      q ∈ cur → q ∉ st.1 → q ∈ (cur.foldl (Pathfinder.procLevel items maxD d) st).2.2 := by
  intro cur
  induction cur with
  | nil => exact fun st q h => absurd h (List.not_mem_nil q)
  | cons p cs ih =>
    intro st q hq hnv
    rw [List.foldl_cons]
    rcases List.mem_cons.mp hq with rfl | hq2
    · apply foldProc_reach_mono
      unfold Pathfinder.procLevel
      rw [if_neg hnv]
      dsimp only
      rw [if_pos hd]
      exact List.mem_append_right _ (List.mem_singleton_self q)
    · by_cases hqp : q ∈ (Pathfinder.procLevel items maxD d st p).1
      · -- q was visited while processing p: either q was already visited
        -- (impossible) or q = p and p was collected right there.
        unfold Pathfinder.procLevel at hqp ⊢
        split at hqp
        · exact absurd hqp hnv
        · rcases List.mem_cons.mp hqp with rfl | h2
          · apply foldProc_reach_mono
            rw [if_neg hnv]
            dsimp only
            rw [if_pos hd]
            exact List.mem_append_right _ (List.mem_singleton_self q)
          · exact absurd h2 hnv
      · exact ih _ q hq2 hqp

/-- Below the hop bound, a neighbour of an unvisited level tile ends up on the
next frontier unless it is already visited or on the level itself. -/
theorem foldProc_enqueue (items : List PlacedItem) (maxD d : Nat) (hD : d < maxD) :
    ∀ (cur : List Tile) (st : List Tile × List Tile × List Tile) (p q : Tile),
      p ∈ cur → p ∉ st.1 → q ∈ Pathfinder.getAdjacentRoadTiles items p.1 p.2 →
      q ∈ (cur.foldl (Pathfinder.procLevel items maxD d) st).2.1 ∨ q ∈ st.1 ∨ q ∈ cur := by
  intro cur
  induction cur with
  | nil => exact fun st p q h => absurd h (List.not_mem_nil p)
  | cons a cs ih =>
    intro st p q hp hnv hadj
    by_cases hpa : p = a
    · subst hpa
      by_cases hqv : q ∈ p :: st.1
      · rcases List.mem_cons.mp hqv with rfl | h2
        · exact Or.inr (Or.inr (List.mem_cons_self _ _))
        · exact Or.inr (Or.inl h2)
      · refine Or.inl ?_
        rw [List.foldl_cons]
        apply foldProc_next_mono
        unfold Pathfinder.procLevel
        rw [if_neg hnv]
        dsimp only
        rw [if_pos hD]
        exact List.mem_append_right _
          (List.mem_filter.mpr ⟨hadj, decide_eq_true hqv⟩)
    · have hpcs : p ∈ cs := by
        rcases List.mem_cons.mp hp with rfl | h2
        · exact absurd rfl hpa
        · exact h2
      have hps : p ∉ (Pathfinder.procLevel items maxD d st a).1 := by
        unfold Pathfinder.procLevel
        split
        · exact hnv
        · intro hin
          rcases List.mem_cons.mp hin with rfl | h2
          · exact hpa rfl
          · exact hnv h2
      rw [List.foldl_cons]
      rcases ih _ p q hpcs hps hadj with h | h | h
      · exact Or.inl h
      · unfold Pathfinder.procLevel at h
        split at h
        · exact Or.inr (Or.inl h)
        · rcases List.mem_cons.mp h with rfl | h2
          · exact Or.inr (Or.inr (List.mem_cons_self _ _))
          · exact Or.inr (Or.inl h2)
      · exact Or.inr (Or.inr (List.mem_cons_of_mem _ h))

/-- Folding a level preserves: the collected reachable list has no duplicates
and all its members are visited. -/
theorem foldProc_nodup (items : List PlacedItem) (maxD d : Nat) :
    ∀ (cur : List Tile) (st : List Tile × List Tile × List Tile),
      st.2.2.Nodup → (∀ a ∈ st.2.2, a ∈ st.1) →
      (cur.foldl (Pathfinder.procLevel items maxD d) st).2.2.Nodup ∧
      ∀ a ∈ (cur.foldl (Pathfinder.procLevel items maxD d) st).2.2,
        a ∈ (cur.foldl (Pathfinder.procLevel items maxD d) st).1 := by
  intro cur
  induction cur with
  | nil => exact fun st h1 h2 => ⟨h1, h2⟩
  | cons p cs ih =>
    intro st hnd hsub
    rw [List.foldl_cons]
    apply ih
    · unfold Pathfinder.procLevel
      split
      · exact hnd
      · dsimp only
        split
        · refine List.Nodup.append hnd (List.nodup_singleton p) ?_
          intro a ha hb
          rcases List.mem_singleton.mp hb with rfl
          exact ‹a ∉ st.1› (hsub a ha) |>.elim
        · exact hnd
    · unfold Pathfinder.procLevel
      split
      · exact hsub
      · dsimp only
        intro a ha
        split at ha
        · rcases List.mem_append.mp ha with h2 | h2
          · exact List.mem_cons_of_mem _ (hsub a h2)
          · rcases List.mem_singleton.mp h2 with rfl
            exact List.mem_cons_self _ _
        · exact List.mem_cons_of_mem _ (hsub a ha)

/-- A path of length 0 ends at the start tile. -/
theorem pathTo_zero (items : List PlacedItem) (start q : Tile) :
    Pathfinder.PathTo items start q 0 → q = start := by
  intro h
  cases h
  rfl

/-- A path of positive length decomposes into a one-shorter path and a last hop. -/
theorem pathTo_succ (items : List PlacedItem) (start q : Tile) (n : Nat) :
    Pathfinder.PathTo items start q (n + 1) →
    ∃ p : Tile, Pathfinder.PathTo items start p n ∧
      q ∈ Pathfinder.getAdjacentRoadTiles items p.1 p.2 := by
  intro h
  cases h with
  | step hp hq => exact ⟨_, hp, hq⟩

/-- The endpoint of a path of positive length is a valid road tile. -/
theorem pathTo_pos_valid (items : List PlacedItem) (start q : Tile) (n : Nat) :
    Pathfinder.PathTo items start q n → 0 < n →
    Pathfinder.isValidRoadTile items q.1 q.2 = true := by
  intro h hn
  cases h with
  | refl => exact absurd hn (lt_irrefl 0)
  | step hp hq =>
    unfold Pathfinder.getAdjacentRoadTiles at hq
    exact (List.mem_filter.mp hq).2

/-- Continuing the level machine never drops a collected reachable tile. -/
theorem levCont_reach_mono (items : List PlacedItem) (maxD : Nat) :
    ∀ (fuel d : Nat) (st : List Tile × List Tile × List Tile) (a : Tile),
      a ∈ st.2.2 → a ∈ Pathfinder.levCont items maxD fuel d st := by
  intro fuel
  induction fuel with
  | zero =>
    intro d st a h
    rw [Pathfinder.levCont]
    exact h
  | succ k ih =>
    intro d st a h
    rw [Pathfinder.levCont]
    exact ih (d + 1) _ a (foldProc_reach_mono items maxD (d + 1) _ _ a h)

/-- Soundness invariant of the level machine: if the frontier holds tiles with
paths of length at most d+1, the start is visited, and everything collected so
far is a valid non-start road tile with a path of positive length at most
maxD, then everything the machine returns is such a tile, without duplicates. -/
theorem levCont_sound (items : List PlacedItem) (maxD : Nat) (start : Tile) :
    ∀ (fuel d : Nat) (st : List Tile × List Tile × List Tile),
      maxD = d + fuel →
      (∀ p ∈ st.2.1, ∃ n, n ≤ d + 1 ∧ Pathfinder.PathTo items start p n) →
      start ∈ st.1 →
      (∀ q ∈ st.2.2, Pathfinder.isValidRoadTile items q.1 q.2 = true ∧ q ≠ start ∧
        ∃ n, 0 < n ∧ n ≤ maxD ∧ Pathfinder.PathTo items start q n) →
      st.2.2.Nodup → (∀ a ∈ st.2.2, a ∈ st.1) →
      (∀ q ∈ Pathfinder.levCont items maxD fuel d st,
        Pathfinder.isValidRoadTile items q.1 q.2 = true ∧ q ≠ start ∧
        ∃ n, 0 < n ∧ n ≤ maxD ∧ Pathfinder.PathTo items start q n) ∧
      (Pathfinder.levCont items maxD fuel d st).Nodup := by
  intro fuel
  induction fuel with
  | zero =>
    intro d st hfd hfr hstart hreach hnd hsub
    rw [Pathfinder.levCont]
    exact ⟨hreach, hnd⟩
  | succ k ih =>
    intro d st hfd hfr hstart hreach hnd hsub
    rw [Pathfinder.levCont]
    apply ih (d + 1)
      ((st.2.1).foldl (Pathfinder.procLevel items maxD (d + 1)) (st.1, [], st.2.2))
    · omega
    · intro p hp
      rcases foldProc_next_sub items maxD (d + 1) _ _ p hp with h | ⟨p0, hp0, hadj⟩
      · exact absurd h (List.not_mem_nil p)
      · rcases hfr p0 hp0 with ⟨n, hn, hpath⟩
        exact ⟨n + 1, by omega, Pathfinder.PathTo.step hpath hadj⟩
    · exact foldProc_visited_mono items maxD (d + 1) _ _ start hstart
    · intro q hq
      rcases foldProc_reach_sub items maxD (d + 1) _ _ q hq with h | ⟨hdpos, hc, hnv⟩
      · exact hreach q h
      · rcases hfr q hc with ⟨n, hn, hpath⟩
        have h0 : 0 < n := by
          rcases Nat.eq_zero_or_pos n with rfl | h
          · exact absurd (by rw [pathTo_zero items start q hpath]; exact hstart) hnv
          · exact h
        refine ⟨pathTo_pos_valid items start q n hpath h0, ?_, n, h0, by omega, hpath⟩
        intro hqs
        exact hnv (by rw [hqs]; exact hstart)
    · exact (foldProc_nodup items maxD (d + 1) st.2.1 (st.1, [], st.2.2) hnd hsub).1
    · exact (foldProc_nodup items maxD (d + 1) st.2.1 (st.1, [], st.2.2) hnd hsub).2

/-- Completeness invariant of the level machine: if every tile at minimal
positive distance at most d is already collected, every tile at minimal
distance d+1 is on the frontier (as long as fuel remains), visited tiles have
paths of length at most d and frontier tiles of length at most d+1, then every
tile at minimal positive distance at most maxD is returned. -/
theorem levCont_complete (items : List PlacedItem) (maxD : Nat) (start : Tile) :
    ∀ (fuel d : Nat) (st : List Tile × List Tile × List Tile),
      maxD = d + fuel →
      (∀ (q : Tile) (n : Nat), Pathfinder.PathTo items start q n →
        (∀ m, Pathfinder.PathTo items start q m → n ≤ m) → 0 < n → n ≤ d →
        q ∈ st.2.2) →
      (0 < fuel → ∀ (q : Tile) (n : Nat), Pathfinder.PathTo items start q n →
        (∀ m, Pathfinder.PathTo items start q m → n ≤ m) → n = d + 1 →
        q ∈ st.2.1) →
      (∀ p ∈ st.1, ∃ n, n ≤ d ∧ Pathfinder.PathTo items start p n) →
      (∀ p ∈ st.2.1, ∃ n, n ≤ d + 1 ∧ Pathfinder.PathTo items start p n) →
      ∀ (q : Tile) (n : Nat), Pathfinder.PathTo items start q n →
        (∀ m, Pathfinder.PathTo items start q m → n ≤ m) → 0 < n → n ≤ maxD →
        q ∈ Pathfinder.levCont items maxD fuel d st := by
  intro fuel
  induction fuel with
  | zero =>
    intro d st hfd hI1 hI2 hI3 hI4 q n hp hmin h0 hn
    rw [Pathfinder.levCont]
    exact hI1 q n hp hmin h0 (by omega)
  | succ k ih =>
    intro d st hfd hI1 hI2 hI3 hI4 q n hp hmin h0 hn
    rw [Pathfinder.levCont]
    refine ih (d + 1)
      ((st.2.1).foldl (Pathfinder.procLevel items maxD (d + 1)) (st.1, [], st.2.2))
      (by omega) ?_ ?_ ?_ ?_ q n hp hmin h0 hn
    · -- collected: minimal distance ≤ d + 1
      intro q' n' hp' hmin' h0' hn'
      by_cases hle : n' ≤ d
      · exact foldProc_reach_mono items maxD (d + 1) _ _ q'
          (hI1 q' n' hp' hmin' h0' hle)
      · have hn'' : n' = d + 1 := by omega
        have hcur : q' ∈ st.2.1 := hI2 (by omega) q' n' hp' hmin' hn''
        have hnv : q' ∉ st.1 := by
          intro hin
          rcases hI3 q' hin with ⟨m, hm, hpm⟩
          have := hmin' m hpm
          omega
        exact foldProc_collect items maxD (d + 1) (by omega) st.2.1
          (st.1, [], st.2.2) q' hcur hnv
    · -- frontier: minimal distance exactly d + 2
      intro hk q' n' hp' hmin' hn'
      subst hn'
      rcases pathTo_succ items start q' (d + 1) hp' with ⟨p0, hpath0, hadj⟩
      have hmin0 : ∀ m, Pathfinder.PathTo items start p0 m → d + 1 ≤ m := by
        intro m hm
        have := hmin' (m + 1) (Pathfinder.PathTo.step hm hadj)
        omega
      have hp0cur : p0 ∈ st.2.1 :=
        hI2 (by omega) p0 (d + 1) hpath0 (fun m hm => hmin0 m hm) rfl
      have hp0nv : p0 ∉ st.1 := by
        intro hin
        rcases hI3 p0 hin with ⟨m, hm, hpm⟩
        have := hmin0 m hpm
        omega
      rcases foldProc_enqueue items maxD (d + 1) (by omega) st.2.1
          (st.1, [], st.2.2) p0 q' hp0cur hp0nv hadj with h | h | h
      · exact h
      · exfalso
        rcases hI3 q' h with ⟨m, hm, hpm⟩
        have := hmin' m hpm
        omega
      · exfalso
        rcases hI4 q' h with ⟨m, hm, hpm⟩
        have := hmin' m hpm
        omega
    · -- visited tiles have paths of length ≤ d + 1
      intro p hpv
      rcases foldProc_visited_sub items maxD (d + 1) _ _ p hpv with h | h
      · rcases hI3 p h with ⟨m, hm, hpm⟩
        exact ⟨m, by omega, hpm⟩
      · exact hI4 p h
    · -- new frontier tiles have paths of length ≤ d + 2
      intro p hpf
      rcases foldProc_next_sub items maxD (d + 1) _ _ p hpf with h | ⟨p0, hp0, hadj⟩
      · exact absurd h (List.not_mem_nil p)
      · rcases hI4 p0 hp0 with ⟨m, hm, hpm⟩
        exact ⟨m + 1, by omega, Pathfinder.PathTo.step hpm hadj⟩

/-- Soundness of findRandomReachableTile's reachable set: every returned tile
is a valid road tile distinct from the start, reached by a road path of
positive length at most maxDistance, and the list holds no duplicates. -/
theorem reachable_sound (items : List PlacedItem) (sx sy : Int) (maxD : Nat) :
    (∀ q ∈ Pathfinder.reachableTiles items sx sy maxD,
      Pathfinder.isValidRoadTile items q.1 q.2 = true ∧ q ≠ (sx, sy) ∧
      ∃ n, 0 < n ∧ n ≤ maxD ∧ Pathfinder.PathTo items (sx, sy) q n) ∧
    (Pathfinder.reachableTiles items sx sy maxD).Nodup := by
  rw [reachableTiles_eq_levCont]
  split
  · apply levCont_sound items maxD (sx, sy) maxD 0 _ (by omega)
    · intro p hp
      rcases foldProc_next_sub items maxD 0 _ _ p hp with h | ⟨p0, hp0, hadj⟩
      · exact absurd h (List.not_mem_nil p)
      · rcases List.mem_singleton.mp hp0 with rfl
        exact ⟨1, le_refl 1, Pathfinder.PathTo.step Pathfinder.PathTo.refl hadj⟩
    · exact foldProc_cur_visited items maxD 0 _ _ (sx, sy) (List.mem_singleton_self _)
    · intro q hq
      rcases foldProc_reach_sub items maxD 0 _ _ q hq with h | ⟨hd, _, _⟩
      · exact absurd h (List.not_mem_nil q)
      · exact absurd hd (lt_irrefl 0)
    · exact (foldProc_nodup items maxD 0 [((sx, sy))] ([], [], []) List.nodup_nil
        (fun a ha => absurd ha (List.not_mem_nil a))).1
    · exact (foldProc_nodup items maxD 0 [((sx, sy))] ([], [], []) List.nodup_nil
        (fun a ha => absurd ha (List.not_mem_nil a))).2
  · refine ⟨fun q hq => absurd hq (List.not_mem_nil q), List.nodup_nil⟩

/-- Completeness of the reachable set: starting from a valid road tile, every
tile at minimal road distance n with 0 < n ≤ maxDistance is returned. -/
theorem reachable_complete (items : List PlacedItem) (sx sy : Int) (maxD : Nat)
    (hvalid : Pathfinder.isValidRoadTile items sx sy = true)
    (q : Tile) (n : Nat) (hp : Pathfinder.PathTo items (sx, sy) q n)
    (hmin : ∀ m, Pathfinder.PathTo items (sx, sy) q m → n ≤ m)
    (h0 : 0 < n) (hn : n ≤ maxD) :
    q ∈ Pathfinder.reachableTiles items sx sy maxD := by
  rw [reachableTiles_eq_levCont, if_pos hvalid]
  refine levCont_complete items maxD (sx, sy) maxD 0 _ (by omega) ?_ ?_ ?_ ?_
    q n hp hmin h0 hn
  · intro q' n' _ _ h0' hn'
    exact absurd (Nat.lt_of_lt_of_le h0' hn') (lt_irrefl 0)
  · intro hfuel q' n' hp' hmin' hn'
    subst hn'
    rcases pathTo_succ items (sx, sy) q' 0 hp' with ⟨p0, hp0, hadj⟩
    have hp0eq : p0 = (sx, sy) := pathTo_zero items (sx, sy) p0 hp0
    subst hp0eq
    rcases foldProc_enqueue items maxD 0 hfuel [((sx, sy))] ([], [], []) (sx, sy) q'
        (List.mem_singleton_self _) (List.not_mem_nil _) hadj with h | h | h
    · exact h
    · exact absurd h (List.not_mem_nil q')
    · rcases List.mem_singleton.mp h with rfl
      have := hmin' 0 Pathfinder.PathTo.refl
      omega
  · intro p hpv
    rcases foldProc_visited_sub items maxD 0 _ _ p hpv with h | h
    · exact absurd h (List.not_mem_nil p)
    · rcases List.mem_singleton.mp h with rfl
      exact ⟨0, le_refl 0, Pathfinder.PathTo.refl⟩
  · intro p hp
    rcases foldProc_next_sub items maxD 0 _ _ p hp with h | ⟨p0, hp0, hadj⟩
    · exact absurd h (List.not_mem_nil p)
    · rcases List.mem_singleton.mp hp0 with rfl
      exact ⟨1, le_refl 1, Pathfinder.PathTo.step Pathfinder.PathTo.refl hadj⟩

/-- C6: every tile of the BFS reachable set is a valid road tile distinct from
the start; with maxDistance 0 the set is empty for every start and item
collection; and the set never lists a tile twice (the BFS never revisits a
tile — its termination on every graph is witnessed by the totality of
bfsLoop's well-founded definition). -/
theorem C6_reachable_valid (items : List PlacedItem) (sx sy : Int) (maxD : Nat) :
    (∀ q ∈ Pathfinder.reachableTiles items sx sy maxD,
      Pathfinder.isValidRoadTile items q.1 q.2 = true ∧ q ≠ (sx, sy)) ∧
    Pathfinder.reachableTiles items sx sy 0 = [] ∧
    (Pathfinder.reachableTiles items sx sy maxD).Nodup := by
  refine ⟨fun q hq => ?_, ?_, (reachable_sound items sx sy maxD).2⟩
  · rcases (reachable_sound items sx sy maxD).1 q hq with ⟨hval, hne, _⟩
    exact ⟨hval, hne⟩
  · rw [reachableTiles_eq_levCont]
    split
    · simp [Pathfinder.procLevel, Pathfinder.levCont]
    · rfl

/-- C7: for a fixed item collection and start tile, the BFS reachable set is
monotone in the hop bound: every tile reachable within h1 hops is reachable
within h2 hops whenever h1 is at most h2. -/
theorem C7_reachable_monotone (items : List PlacedItem) (sx sy : Int) (h1 h2 : Nat)
    (hle : h1 ≤ h2) :
    ∀ q ∈ Pathfinder.reachableTiles items sx sy h1,
      q ∈ Pathfinder.reachableTiles items sx sy h2 := by
  intro q hq
  have hvalid : Pathfinder.isValidRoadTile items sx sy = true := by
    by_contra hv
    rw [reachableTiles_eq_levCont, if_neg hv] at hq
    exact absurd hq (List.not_mem_nil q)
  rcases (reachable_sound items sx sy h1).1 q hq with ⟨hval, hne, n, h0, hn, hpath⟩
  have hex : ∃ m, Pathfinder.PathTo items (sx, sy) q m := ⟨n, hpath⟩
  haveI : DecidablePred (fun m => Pathfinder.PathTo items (sx, sy) q m) :=
    Classical.decPred _
  have hspec := Nat.find_spec hex
  have hminp : ∀ m, Pathfinder.PathTo items (sx, sy) q m → Nat.find hex ≤ m :=
    fun m hm => Nat.find_min' hex hm
  have h0' : 0 < Nat.find hex := by
    rcases Nat.eq_zero_or_pos (Nat.find hex) with hz | hpos
    · exfalso
      apply hne
      rw [hz] at hspec
      exact pathTo_zero items (sx, sy) q hspec
    · exact hpos
  exact reachable_complete items sx sy h2 hvalid q (Nat.find hex) hspec hminp h0'
    (le_trans (le_trans (hminp n hpath) hn) hle)

/-- Witness for C7 at a concrete instance: hop bounds 0 and 1 over the empty
item collection. -/
theorem C7_reachable_monotone_witness :
    (0 : Nat) ≤ 1 ∧ ∀ q ∈ Pathfinder.reachableTiles [] 0 0 0,
      q ∈ Pathfinder.reachableTiles [] 0 0 1 :=
  ⟨Nat.zero_le 1, C7_reachable_monotone [] 0 0 0 1 (Nat.zero_le 1)⟩
